import Mathlib

/-!
# blinkspace: the bouncing light of `src/main.cpp`

A shallow embedding of the motion state machine (`IdleMode`, `AccelerateMode`,
`FrictionMode`, `ExplodeMode`, `updatePosition`), of `setup`, `render` and `loop`, and of
the runs of `loop` over a sequence of clock and button readings (`run`).

The machine is embedded twice.

* In `Blinkspace`, the `float` values are rationals and the arithmetic is exact; the
  constants `0.000009` and `0.07` are the rationals `9/1000000` and `7/100`. The
  properties that the specification states for exact arithmetic, and those that the
  rounding does not bear on, are proved on this embedding.
* In `Blinkspace.Binary32`, the `float` values are IEEE 754 binary32 numbers
  (`Float32`): every sum, product and conversion is rounded to nearest, ties to even,
  and the constants are the binary32 numbers nearest to `0.000009` and `0.07`. The
  properties of the speed, of the terminal flag and of the branches taken on them are
  proved on this embedding.

Conventions common to both.

* `unsigned long` values are naturals below `2 ^ 32`; the only operation the program
  performs on them is subtraction, which is reduced modulo `2 ^ 32` (`subUL`).
* `uint8_t button_press` is a natural; the program only tests it against zero.
* The function pointer `update` of a state ranges over the four mode functions and is
  a four-valued tag (`ModeFn`).
* `Serial.print` / `Serial.println` only log and are left out.
-/

set_option linter.unusedVariables false

namespace Blinkspace

/-! ## Constants -/

/-- Number of pixels of the strip: `const uint16_t ledCount = 5`. -/
def ledCount : Nat := 5

/-- Magnitude of the acceleration, in pixels per millisecond squared:
`const float acceleration = 0.000009`. -/
def acceleration : ℚ := 9 / 1000000

/-- Speed above which the light explodes, in pixels per millisecond:
`const float terminalVelocity = 0.07`. -/
def terminalVelocity : ℚ := 7 / 100

/-- Number of values of an `unsigned long` (32 bits on the target). -/
def ulongSize : Nat := 2 ^ 32

/-- Subtraction of two `unsigned long` values, reduced modulo `2 ^ 32`. -/
def subUL (a b : Nat) : Nat := (a % ulongSize + (ulongSize - b % ulongSize)) % ulongSize

/-! ## Data model -/

/-- The four functions a state's `update` pointer can hold. -/
inductive ModeFn where
  | IdleMode
  | AccelerateMode
  | FrictionMode
  | ExplodeMode
  deriving DecidableEq, Repr

/-- The record `struct State_struct`. -/
structure State where
  /-- Current position of the light, in pixels. -/
  pos : ℚ
  /-- Current speed of the light, in pixels per millisecond. -/
  speed : ℚ
  /-- Has the light hit terminal velocity? -/
  terminal : Bool
  /-- The last time update was called. -/
  last_time : Nat
  /-- The time this mode started. -/
  started_at : Nat
  /-- The function used to update the state at the next tick. -/
  update : ModeFn
  deriving DecidableEq, Repr

/-! ## The mode functions -/

/-- The function `IdleMode`. Its local `new_state` is declared without a value and the
branch taken when the button is not pressed never assigns `new_state.started_at`; the
value that field then holds is not determined by the program and is the extra argument
`stale`. -/
def IdleMode (stale : Nat) (current_state : State) (current_time : Nat)
    (button_press : Nat) : State :=
  if button_press ≠ 0 then
    { pos := current_state.pos
      speed := 0
      terminal := false
      last_time := current_time
      started_at := current_time
      update := ModeFn.AccelerateMode }
  else
    { pos := current_state.pos
      speed := 0
      terminal := false
      last_time := current_time
      started_at := stale
      update := current_state.update }

/-- The function `updatePosition`: one integration step in the given direction. -/
def updatePosition (current_state : State) (current_time : Nat) (direction : Int) : State :=
  let deltaT : Nat := subUL current_time current_state.last_time
  let speed : ℚ := current_state.speed + (direction * acceleration * deltaT)
  { speed := speed
    pos := current_state.pos + current_state.speed
      + ((1 / 2 : ℚ) * direction * acceleration * deltaT * deltaT)
    terminal := decide (speed > terminalVelocity)
    last_time := current_time
    started_at := current_state.started_at
    update := current_state.update }

/-- The function `AccelerateMode`: integrate forwards, then explode at terminal velocity,
else fall back to friction when the button is released. -/
def AccelerateMode (current_state : State) (current_time : Nat) (button_press : Nat) : State :=
  let new_state := updatePosition current_state current_time 1
  if new_state.terminal then
    { new_state with started_at := current_time, update := ModeFn.ExplodeMode }
  else if ¬ (button_press ≠ 0) then
    { new_state with started_at := current_time, update := ModeFn.FrictionMode }
  else
    new_state

/-- The function `FrictionMode`: integrate backwards, then come to rest once the speed is
negative, else accelerate again when the button is pressed. -/
def FrictionMode (current_state : State) (current_time : Nat) (button_press : Nat) : State :=
  let new_state := updatePosition current_state current_time (-1)
  if new_state.speed < 0 then
    { new_state with started_at := current_time, update := ModeFn.IdleMode }
  else if button_press ≠ 0 then
    { new_state with started_at := current_time, update := ModeFn.AccelerateMode }
  else
    new_state

/-- The function `ExplodeMode`: hold the state until more than 1500 ms have passed since
the mode started. -/
def ExplodeMode (current_state : State) (current_time : Nat) (button_press : Nat) : State :=
  let deltaT : Nat := subUL current_time current_state.started_at
  if deltaT > 1500 then
    { current_state with update := ModeFn.IdleMode }
  else
    current_state

/-- Call through the function pointer: `fn(current_state, current_time, button_press)`. -/
def ModeFn.call (fn : ModeFn) (stale : Nat) (current_state : State) (current_time : Nat)
    (button_press : Nat) : State :=
  match fn with
  | ModeFn.IdleMode => Blinkspace.IdleMode stale current_state current_time button_press
  | ModeFn.AccelerateMode => Blinkspace.AccelerateMode current_state current_time button_press
  | ModeFn.FrictionMode => Blinkspace.FrictionMode current_state current_time button_press
  | ModeFn.ExplodeMode => Blinkspace.ExplodeMode current_state current_time button_press

/-- The state update of `loop`: `state = state.update(state, t, digitalRead(buttonPin))`. -/
def tick (stale : Nat) (state : State) (t : Nat) (button_press : Nat) : State :=
  state.update.call stale state t button_press

/-- The state written by `setup`, where `millis()` returned `t0` and then `t1`. -/
def setup (t0 t1 : Nat) : State :=
  { pos := 0
    speed := 0
    terminal := false
    last_time := t0
    started_at := t1
    update := ModeFn.IdleMode }

/-! ## Rendering -/

/-- Modelled from the spec: the pixel type of the APA102 library, whose declaration is
not part of the repository: the three colour channels of one pixel. -/
structure rgb_color where
  red : Nat
  green : Nat
  blue : Nat
  deriving DecidableEq, Repr

/-- Modelled from the spec: the arguments of one call
`ledStrip.write(colours, count, brightness)` of the APA102 library, whose code is not
part of the repository: the colour sequence, its length and the brightness level. -/
structure StripWrite where
  colours : List rgb_color
  count : Nat
  brightness : Nat
  deriving DecidableEq, Repr

/-- The dark pixel `(rgb_color){0, 0, 0}`. -/
def offColour : rgb_color := ⟨0, 0, 0⟩

/-- The colour `(rgb_color){29, 106, 177}` of the moving light. -/
def motionColour : rgb_color := ⟨29, 106, 177⟩

/-- The colour `(rgb_color){220, 127, 31}` of the explosion. -/
def impactColour : rgb_color := ⟨220, 127, 31⟩

/-- The conversion `(uint8_t) x` of a float: the fractional part is discarded
(rounding towards zero). When the truncated value lies outside `0 .. 255` C++ leaves the
result undefined; the embedding then keeps its low eight bits. -/
def toUInt8 (x : ℚ) : Nat := ((if 0 ≤ x then ⌊x⌋ else ⌈x⌉) % 256).toNat

/-- The function `render`. Its first argument is the global variable `state`, which is
what the body reads; the second is its parameter `current_state`, which the body never
mentions. The array `colours` starts as `ledCount` dark pixels; the result is the call
of `ledStrip.write` the function ends with. -/
def render (state : State) (current_state : State) : StripWrite :=
  let colours : List rgb_color := List.replicate ledCount offColour
  if state.terminal then
    let colours := (List.range ledCount).foldl (fun cs i => cs.set i impactColour) colours
    { colours := colours, count := ledCount, brightness := 8 }
  else
    let colours := colours.set (toUInt8 state.pos % 5) motionColour
    { colours := colours, count := ledCount, brightness := 4 }

/-- What one pass of `loop` reads: the value `millis()` returns, the value
`digitalRead(buttonPin)` returns, and the value `IdleMode` finds in the field it does not
assign. -/
structure TickInput where
  stale : Nat
  t : Nat
  button_press : Nat
  deriving DecidableEq, Repr

/-- The global `state` after `loop` has run once for each input, in order. -/
def run (state : State) (inputs : List TickInput) : State :=
  inputs.foldl (fun s i => tick i.stale s i.t i.button_press) state

/-- The specification's reading of modeStartTime, kept beside a run: the timestamp of the
tick at which the current mode was entered, and `start` while the mode the run began in
has not been left. -/
def modeEnteredAt (start : Nat) (state : State) : List TickInput → Nat
  | [] => start
  | i :: rest =>
    let next := tick i.stale state i.t i.button_press
    modeEnteredAt (if next.update = state.update then start else i.t) next rest

/-! ## States used as examples -/

/-- The state reached from `setup` at time 0 by a press at time 0. -/
def pressed : State :=
  { pos := 0
    speed := 0
    terminal := false
    last_time := 0
    started_at := 0
    update := ModeFn.AccelerateMode }

/-- The state reached from `pressed` by a tick at time 1 with the button released. -/
def released : State :=
  { pos := 9 / 2000000
    speed := 9 / 1000000
    terminal := false
    last_time := 1
    started_at := 1
    update := ModeFn.FrictionMode }

/-- The state reached from `pressed` by a tick at time 1000 with the button held. -/
def heldOneSecond : State :=
  { pos := 9 / 2
    speed := 9 / 1000
    terminal := false
    last_time := 1000
    started_at := 0
    update := ModeFn.AccelerateMode }

/-- The state reached from `heldOneSecond` by a tick at time 8000: the explosion. -/
def exploded : State :=
  { pos := 225009 / 1000
    speed := 9 / 125
    terminal := true
    last_time := 8000
    started_at := 8000
    update := ModeFn.ExplodeMode }

/-- The state reached from `released` by a tick at time 401: the light has stalled, just
behind its starting point. -/
def stalled : State :=
  { pos := -1439973 / 2000000
    speed := -3591 / 1000000
    terminal := false
    last_time := 401
    started_at := 401
    update := ModeFn.IdleMode }

/-- The state reached from `exploded` by a tick at time 9501: the explosion has timed
out and the mode is Idle. -/
def timedOut : State :=
  { pos := 225009 / 1000
    speed := 9 / 125
    terminal := true
    last_time := 8000
    started_at := 8000
    update := ModeFn.IdleMode }

/-- The state reached from `released` by a tick at time 1001: the light has come to rest
behind its starting point. -/
def reversed : State :=
  { pos := -8999973 / 2000000
    speed := -8991 / 1000000
    terminal := false
    last_time := 1001
    started_at := 1001
    update := ModeFn.IdleMode }

/-- A state at rest whose last tick was at the largest value of the counter. -/
def wrapping : State :=
  { pos := 0
    speed := 0
    terminal := false
    last_time := 4294967295
    started_at := 4294967295
    update := ModeFn.AccelerateMode }

/-- The state reached from `pressed` by a tick at time 7700 with the button held: the
light has passed position 256 and is not yet at terminal velocity. -/
def heldLong : State :=
  { pos := 53361 / 200
    speed := 693 / 10000
    terminal := false
    last_time := 7700
    started_at := 0
    update := ModeFn.AccelerateMode }

/-! ## Binary32 arithmetic -/

/-- Round a rational to the nearest integer, a tie going to the even neighbour. -/
def roundHalfEven (q : ℚ) : Int :=
  if q - ⌊q⌋ < 1 / 2 then ⌊q⌋
  else if 1 / 2 < q - ⌊q⌋ then ⌊q⌋ + 1
  else if ⌊q⌋ % 2 = 0 then ⌊q⌋ else ⌊q⌋ + 1

/-- Exponent of the unit in the last place of the binary32 values around `q`: 24
significant bits, and never below `2 ^ (-149)`, the spacing of the subnormal values. -/
def ulpExponent (q : ℚ) : Int := max (Int.log 2 |q|) (-126) - 23

/-- The multiple of the unit in the last place nearest to `q`, ties to even. -/
def roundToGrid (q : ℚ) : ℚ := (roundHalfEven (q / 2 ^ ulpExponent q) : ℚ) * 2 ^ ulpExponent q

/-- A value of the type `float` (and of `double`, which has the same format on the AVR
target): an IEEE 754 binary32 number, here a rational, or an infinity, or a NaN. The two
zeros are not told apart; the program has no operation that could. -/
inductive Float32 where
  | finite (value : ℚ)
  | infinite (negative : Bool)
  | nan
  deriving DecidableEq, Repr

/-- The binary32 value a real result is rounded to: the nearest one, ties to even, and
an infinity when the rounded magnitude reaches `2 ^ 128`. -/
def round32 (q : ℚ) : Float32 :=
  if 2 ^ 128 ≤ |roundToGrid q| then Float32.infinite (decide (q < 0))
  else Float32.finite (roundToGrid q)

/-- Addition of two `float` values. -/
def Float32.add : Float32 → Float32 → Float32
  | Float32.finite a, Float32.finite b => round32 (a + b)
  | Float32.finite _, Float32.infinite n => Float32.infinite n
  | Float32.infinite n, Float32.finite _ => Float32.infinite n
  | Float32.infinite n, Float32.infinite m => if n = m then Float32.infinite n else Float32.nan
  | Float32.nan, _ => Float32.nan
  | _, Float32.nan => Float32.nan

/-- Multiplication of two `float` values. -/
def Float32.mul : Float32 → Float32 → Float32
  | Float32.finite a, Float32.finite b => round32 (a * b)
  | Float32.finite a, Float32.infinite n =>
    if a = 0 then Float32.nan else Float32.infinite (xor (decide (a < 0)) n)
  | Float32.infinite n, Float32.finite b =>
    if b = 0 then Float32.nan else Float32.infinite (xor n (decide (b < 0)))
  | Float32.infinite n, Float32.infinite m => Float32.infinite (xor n m)
  | Float32.nan, _ => Float32.nan
  | _, Float32.nan => Float32.nan

/-- The comparison `a < b` of two `float` values; false as soon as one is a NaN. -/
def Float32.lt : Float32 → Float32 → Bool
  | Float32.finite a, Float32.finite b => decide (a < b)
  | Float32.finite _, Float32.infinite n => !n
  | Float32.infinite n, Float32.finite _ => n
  | Float32.infinite n, Float32.infinite m => n && !m
  | Float32.nan, _ => false
  | _, Float32.nan => false

/-- Conversion of an `int` to `float`. -/
def Float32.ofInt (i : Int) : Float32 := round32 i

/-- Conversion of an `unsigned long` to `float`. -/
def Float32.ofNat (n : Nat) : Float32 := round32 n

namespace Binary32

/-! ## The machine in binary32 arithmetic

The same functions as above, with every `float` operation rounded as the target rounds
it. The expressions are read as C++ reads them: `direction * acceleration * deltaT` is
`((float) direction * acceleration) * (float) deltaT`, each product rounded; and the
`double` subexpressions of the position are binary32 as well, `double` being 32 bits
wide on the target. -/

/-- The constant `acceleration`: the `float` nearest to 0.000009. -/
def acceleration : Float32 := round32 (9 / 1000000)

/-- The constant `terminalVelocity`: the `float` nearest to 0.07. -/
def terminalVelocity : Float32 := round32 (7 / 100)

/-- The record `struct State_struct`, its `float` fields in binary32. -/
structure State where
  pos : Float32
  speed : Float32
  terminal : Bool
  last_time : Nat
  started_at : Nat
  update : ModeFn
  deriving DecidableEq, Repr

/-- The function `IdleMode`; `stale` is the value of the field it does not assign. -/
def IdleMode (stale : Nat) (current_state : State) (current_time : Nat)
    (button_press : Nat) : State :=
  if button_press ≠ 0 then
    { pos := current_state.pos
      speed := Float32.finite 0
      terminal := false
      last_time := current_time
      started_at := current_time
      update := ModeFn.AccelerateMode }
  else
    { pos := current_state.pos
      speed := Float32.finite 0
      terminal := false
      last_time := current_time
      started_at := stale
      update := current_state.update }

/-- The function `updatePosition`. -/
def updatePosition (current_state : State) (current_time : Nat) (direction : Int) : State :=
  let deltaT : Nat := subUL current_time current_state.last_time
  let speed : Float32 := Float32.add current_state.speed
    (Float32.mul (Float32.mul (Float32.ofInt direction) acceleration) (Float32.ofNat deltaT))
  { speed := speed
    pos := Float32.add (Float32.add current_state.pos current_state.speed)
      (Float32.mul
        (Float32.mul
          (Float32.mul (Float32.mul (round32 (1 / 2)) (Float32.ofInt direction)) acceleration)
          (Float32.ofNat deltaT))
        (Float32.ofNat deltaT))
    terminal := Float32.lt terminalVelocity speed
    last_time := current_time
    started_at := current_state.started_at
    update := current_state.update }

/-- The function `AccelerateMode`. -/
def AccelerateMode (current_state : State) (current_time : Nat) (button_press : Nat) : State :=
  let new_state := updatePosition current_state current_time 1
  if new_state.terminal then
    { new_state with started_at := current_time, update := ModeFn.ExplodeMode }
  else if ¬ (button_press ≠ 0) then
    { new_state with started_at := current_time, update := ModeFn.FrictionMode }
  else
    new_state

/-- The function `FrictionMode`. -/
def FrictionMode (current_state : State) (current_time : Nat) (button_press : Nat) : State :=
  let new_state := updatePosition current_state current_time (-1)
  if Float32.lt new_state.speed (Float32.finite 0) then
    { new_state with started_at := current_time, update := ModeFn.IdleMode }
  else if button_press ≠ 0 then
    { new_state with started_at := current_time, update := ModeFn.AccelerateMode }
  else
    new_state

/-- The function `ExplodeMode`. -/
def ExplodeMode (current_state : State) (current_time : Nat) (button_press : Nat) : State :=
  let deltaT : Nat := subUL current_time current_state.started_at
  if deltaT > 1500 then
    { current_state with update := ModeFn.IdleMode }
  else
    current_state

/-- The state update of `loop`, through the function pointer of the state. -/
def tick (stale : Nat) (state : State) (t : Nat) (button_press : Nat) : State :=
  match state.update with
  | ModeFn.IdleMode => IdleMode stale state t button_press
  | ModeFn.AccelerateMode => AccelerateMode state t button_press
  | ModeFn.FrictionMode => FrictionMode state t button_press
  | ModeFn.ExplodeMode => ExplodeMode state t button_press

/-- The state written by `setup`, where `millis()` returned `t0` and then `t1`. -/
def setup (t0 t1 : Nat) : State :=
  { pos := Float32.finite 0
    speed := Float32.finite 0
    terminal := false
    last_time := t0
    started_at := t1
    update := ModeFn.IdleMode }

/-- The global `state` after `loop` has run once for each input, in order. -/
def run (state : State) (inputs : List TickInput) : State :=
  inputs.foldl (fun s i => tick i.stale s i.t i.button_press) state

/-! ## Binary32 states used as examples -/

/-- A state in Accelerate mode whose speed is exactly the constant `terminalVelocity`. -/
def cruising : State :=
  { pos := Float32.finite 0
    speed := Float32.finite (9395241 / 2 ^ 27)
    terminal := false
    last_time := 8000
    started_at := 0
    update := ModeFn.AccelerateMode }

/-- A state in Accelerate mode with speed 15283641 / 2^31, about 0.0071. -/
def nearTerminal : State :=
  { pos := Float32.finite 0
    speed := Float32.finite (15283641 / 2 ^ 31)
    terminal := false
    last_time := 0
    started_at := 0
    update := ModeFn.AccelerateMode }

/-- A state in Friction mode with speed 14843407 / 2^38, last ticked at time 6: the speed
the machine has after a press at time 0, a held tick at time 1 and a release at time 6. -/
def coasting : State :=
  { pos := Float32.finite (4329327 / 2 ^ 35)
    speed := Float32.finite (14843407 / 2 ^ 38)
    terminal := false
    last_time := 6
    started_at := 6
    update := ModeFn.FrictionMode }

/-- The state reached from `setup` at time 0 by a press at time 0. -/
def pressed : State :=
  { pos := Float32.finite 0
    speed := Float32.finite 0
    terminal := false
    last_time := 0
    started_at := 0
    update := ModeFn.AccelerateMode }

/-- The state reached from `pressed` by a tick at time 1 with the button held. -/
def moving : State :=
  { pos := Float32.finite (9895605 / 2 ^ 41)
    speed := Float32.finite (9895605 / 2 ^ 40)
    terminal := false
    last_time := 1
    started_at := 0
    update := ModeFn.AccelerateMode }

/-- The state reached from `coasting` by a tick at time 12: the speed has gone below
zero and the mode is Idle. -/
def rested : State :=
  { pos := Float32.finite (618475 / 2 ^ 35)
    speed := Float32.finite (-(1 / 2 ^ 38))
    terminal := false
    last_time := 12
    started_at := 12
    update := ModeFn.IdleMode }

end Binary32

/-! ## Elapsed time -/

/-- The difference `subUL a b` is the integer difference reduced modulo `2 ^ 32`. -/
theorem subUL_cast (a b : Nat) : ((subUL a b : Nat) : Int) = ((a : Int) - (b : Int)) % 2 ^ 32 := by
  unfold subUL ulongSize
  omega

/-- The same fact with the difference read as a rational. -/
theorem subUL_ratCast (a b : Nat) :
    ((subUL a b : Nat) : ℚ) = ((((a : Int) - (b : Int)) % 2 ^ 32 : Int) : ℚ) := by
  rw [← subUL_cast]
  simp

/-! ## The example states are reachable -/

/-- The states used as examples are reached from `setup` by ticks of the machine. -/
theorem example_states_reached :
    tick 0 (setup 0 0) 0 1 = pressed
    ∧ tick 0 pressed 1000 1 = heldOneSecond
    ∧ tick 0 heldOneSecond 8000 1 = exploded
    ∧ tick 0 pressed 1 0 = released
    ∧ tick 0 released 401 0 = stalled := by
  have h1 : subUL 1000 0 = 1000 := by decide
  have h2 : subUL 8000 1000 = 7000 := by decide
  have h3 : subUL 1 0 = 1 := by decide
  have h4 : subUL 401 1 = 400 := by decide
  refine ⟨?_, ?_, ?_, ?_, ?_⟩
  · simp [tick, ModeFn.call, setup, IdleMode, pressed]
  · norm_num [tick, ModeFn.call, pressed, AccelerateMode, updatePosition, h1,
      acceleration, terminalVelocity, heldOneSecond]
  · norm_num [tick, ModeFn.call, heldOneSecond, AccelerateMode, updatePosition, h2,
      acceleration, terminalVelocity, exploded]
  · norm_num [tick, ModeFn.call, pressed, AccelerateMode, updatePosition, h3,
      acceleration, terminalVelocity, released]
  · norm_num [tick, ModeFn.call, released, FrictionMode, updatePosition, h4,
      acceleration, terminalVelocity, stalled]

/-! ## The integrator -/

/-- The position `updatePosition` returns: the old speed is added as it is, whatever the
elapsed time. -/
theorem updatePosition_pos (s : State) (now : Nat) (direction : Int) :
    (updatePosition s now direction).pos
      = s.pos + s.speed
        + (1 / 2 : ℚ) * direction * (9 / 1000000) * (subUL now s.last_time : ℚ) ^ 2 := by
  simp only [updatePosition, acceleration]
  ring

/-- C1, evaluated on the code: from the state reached by holding the button for one
second (position 4.5, speed 0.009, last tick at 1000), a step to time 2000 in direction
+1 has deltaT = 1000 and returns position 9.009 = 4.5 + 0.009 + 4.5, whereas
position + speed * deltaT + 0.5 * direction * A * deltaT^2 is 18: the speed term is not
multiplied by deltaT. -/
theorem updatePosition_pos_omits_deltaT :
    tick 0 pressed 1000 1 = heldOneSecond
    ∧ subUL 2000 heldOneSecond.last_time = 1000
    ∧ (updatePosition heldOneSecond 2000 1).pos = 9009 / 1000
    ∧ heldOneSecond.pos + heldOneSecond.speed * 1000
        + (1 / 2 : ℚ) * 1 * (9 / 1000000) * 1000 ^ 2 = 18
    ∧ (updatePosition heldOneSecond 2000 1).pos
        ≠ heldOneSecond.pos + heldOneSecond.speed * (subUL 2000 heldOneSecond.last_time : ℚ)
          + (1 / 2 : ℚ) * 1 * (9 / 1000000) * (subUL 2000 heldOneSecond.last_time : ℚ) ^ 2 := by
  have hd : subUL 2000 heldOneSecond.last_time = 1000 := by decide
  have hd1 : subUL 1000 0 = 1000 := by decide
  refine ⟨?_, hd, ?_, ?_, ?_⟩
  · norm_num [tick, ModeFn.call, pressed, AccelerateMode, updatePosition, hd1,
      acceleration, terminalVelocity, heldOneSecond]
  · rw [updatePosition_pos, hd]
    norm_num [heldOneSecond]
  · norm_num [heldOneSecond]
  · rw [updatePosition_pos, hd]
    norm_num [heldOneSecond]

/-! ## The four modes -/

/-- C3: for every state whose mode is Idle and every timestamp, the Idle tick returns
speed 0, terminalFlag false, the old position and lastTime = now; when the button is
not pressed the mode is still Idle, and when it is pressed the mode is Accelerate and
modeStartTime = now. -/
theorem IdleMode_tick (stale : Nat) (s : State) (now button_press : Nat)
    (hmode : s.update = ModeFn.IdleMode) :
    (tick stale s now button_press).speed = 0
    ∧ (tick stale s now button_press).terminal = false
    ∧ (tick stale s now button_press).pos = s.pos
    ∧ (tick stale s now button_press).last_time = now
    ∧ (button_press = 0 → (tick stale s now button_press).update = ModeFn.IdleMode)
    ∧ (button_press ≠ 0 → (tick stale s now button_press).update = ModeFn.AccelerateMode
        ∧ (tick stale s now button_press).started_at = now) := by
  by_cases hb : button_press = 0 <;> simp [tick, ModeFn.call, IdleMode, hmode, hb]

/-- C3 at a concrete tick: the state written by `setup`, button pressed at time 7. -/
theorem IdleMode_tick_witness :
    (setup 3 3).update = ModeFn.IdleMode
    ∧ (tick 0 (setup 3 3) 7 1).speed = 0
    ∧ (tick 0 (setup 3 3) 7 1).terminal = false
    ∧ (tick 0 (setup 3 3) 7 1).last_time = 7
    ∧ (tick 0 (setup 3 3) 7 1).update = ModeFn.AccelerateMode
    ∧ (tick 0 (setup 3 3) 7 1).started_at = 7 :=
  have h := IdleMode_tick 0 (setup 3 3) 7 1 rfl
  ⟨rfl, h.1, h.2.1, h.2.2.2.1, (h.2.2.2.2.2 (by decide)).1, (h.2.2.2.2.2 (by decide)).2⟩

/-- C7: for every state in Explode mode and every timestamp, with elapsed the difference
now - modeStartTime modulo 2^32: the mode stays Explode when elapsed is at most 1500
(1500 included) and becomes Idle when elapsed exceeds 1500, whatever the button value. -/
theorem ExplodeMode_duration (stale : Nat) (s : State) (now button_press : Nat)
    (hmode : s.update = ModeFn.ExplodeMode) :
    (((now : Int) - (s.started_at : Int)) % 2 ^ 32 ≤ 1500 →
        (tick stale s now button_press).update = ModeFn.ExplodeMode)
    ∧ (((now : Int) - (s.started_at : Int)) % 2 ^ 32 > 1500 →
        (tick stale s now button_press).update = ModeFn.IdleMode) := by
  have hc := subUL_cast now s.started_at
  have htk : tick stale s now button_press = ExplodeMode s now button_press := by
    simp [tick, ModeFn.call, hmode]
  rw [htk]
  constructor
  · intro h
    have h' : ¬ subUL now s.started_at > 1500 := by omega
    simp [ExplodeMode, h', hmode]
  · intro h
    have h' : subUL now s.started_at > 1500 := by omega
    simp [ExplodeMode, h']

/-- C7 at concrete ticks: the explosion started at time 8000 is still in Explode at
time 9500 (elapsed 1500) and leaves for Idle at time 9501. -/
theorem ExplodeMode_duration_witness :
    exploded.update = ModeFn.ExplodeMode
    ∧ (tick 0 exploded 9500 0).update = ModeFn.ExplodeMode
    ∧ (tick 0 exploded 9501 0).update = ModeFn.IdleMode :=
  ⟨rfl, (ExplodeMode_duration 0 exploded 9500 0 rfl).1 (by decide),
    (ExplodeMode_duration 0 exploded 9501 0 rfl).2 (by decide)⟩

/-- C8: for every state, timestamp and button value, `ExplodeMode` returns the position,
speed, terminalFlag, lastTime and modeStartTime it was given, whether it stays in Explode
or switches to Idle: apart from the mode the state is returned as it is. -/
theorem ExplodeMode_frame (s : State) (now button_press : Nat) :
    (ExplodeMode s now button_press).pos = s.pos
    ∧ (ExplodeMode s now button_press).speed = s.speed
    ∧ (ExplodeMode s now button_press).terminal = s.terminal
    ∧ (ExplodeMode s now button_press).last_time = s.last_time
    ∧ (ExplodeMode s now button_press).started_at = s.started_at
    ∧ (ExplodeMode s now button_press = s
        ∨ ExplodeMode s now button_press = { s with update := ModeFn.IdleMode }) := by
  by_cases h : subUL now s.started_at > 1500 <;> simp [ExplodeMode, h]

/-! ## Rendering -/

/-- For a position in the range of `uint8_t` the conversion is the floor. -/
theorem toUInt8_of_inRange (x : ℚ) (h0 : 0 ≤ x) (h1 : x < 256) :
    ((toUInt8 x : Nat) : Int) = ⌊x⌋ := by
  have hf0 : 0 ≤ ⌊x⌋ := Int.floor_nonneg.mpr h0
  have hf1 : ⌊x⌋ < 256 := Int.floor_lt.mpr (by exact_mod_cast h1)
  simp only [toUInt8, h0, if_true]
  omega

/-- The body of `render` never reads its parameter. -/
theorem render_ignores_argument (state a b : State) : render state a = render state b := rfl

/-- The conversion of the position of `stalled` is 0: its fractional part is dropped. -/
theorem toUInt8_stalled : toUInt8 stalled.pos = 0 := by
  have hneg : ¬ (0 : ℚ) ≤ stalled.pos := by norm_num [stalled]
  have hceil : ⌈stalled.pos⌉ = 0 := by
    rw [Int.ceil_eq_iff]
    norm_num [stalled]
  simp [toUInt8, hneg, hceil]

/-! ## Zero and wrapped elapsed time -/

/-- A timestamp equal to the last one gives an elapsed time of zero. -/
theorem subUL_self (a : Nat) : subUL a a = 0 := by
  unfold subUL ulongSize
  omega

/-- When the counter has advanced by `d < 2 ^ 32`, wrapping or not, the difference is `d`. -/
theorem subUL_advance (a d : Nat) (hd : d < 2 ^ 32) : subUL ((a + d) % 2 ^ 32) a = d := by
  unfold subUL ulongSize
  omega

/-- What `updatePosition` returns for deltaT = 0: the speed it was given, and the position
advanced by that speed. -/
theorem updatePosition_zero_deltaT (s : State) (direction : Int) :
    (updatePosition s s.last_time direction).speed = s.speed
    ∧ (updatePosition s s.last_time direction).pos = s.pos + s.speed := by
  simp [updatePosition, subUL_self]

/-- C11, evaluated on the code: a step from `heldOneSecond` (position 4.5, speed 0.009,
last tick at 1000) to the same timestamp 1000 has deltaT = 0 and returns the speed
unchanged, but the position 4.509 instead of 4.5: the speed is added to the position
whatever the elapsed time. -/
theorem updatePosition_zero_deltaT_moves :
    subUL 1000 heldOneSecond.last_time = 0
    ∧ (updatePosition heldOneSecond 1000 1).speed = heldOneSecond.speed
    ∧ heldOneSecond.pos = 9 / 2
    ∧ (updatePosition heldOneSecond 1000 1).pos = 4509 / 1000
    ∧ (updatePosition heldOneSecond 1000 1).pos ≠ heldOneSecond.pos := by
  have hd : subUL 1000 heldOneSecond.last_time = 0 := by decide
  have hl : heldOneSecond.last_time = 1000 := rfl
  have hz := updatePosition_zero_deltaT heldOneSecond 1
  rw [hl] at hz
  refine ⟨hd, hz.1, rfl, ?_, ?_⟩
  · rw [hz.2]
    norm_num [heldOneSecond]
  · rw [hz.2]
    norm_num [heldOneSecond]

/-- C12: with position 0, speed 0, lastTime 0, A = 0.000009 and direction +1,
`updatePosition` at timestamp 1000 returns speed' = 0.009 and position' = 4.5, and
terminalFlag' = false, as 0.009 <= 0.07. -/
theorem updatePosition_one_second (s : State) (hpos : s.pos = 0) (hspeed : s.speed = 0)
    (hlast : s.last_time = 0) :
    acceleration = 9 / 1000000
    ∧ (updatePosition s 1000 1).speed = 9 / 1000
    ∧ (updatePosition s 1000 1).pos = 9 / 2
    ∧ (updatePosition s 1000 1).terminal = false
    ∧ (9 / 1000 : ℚ) ≤ 7 / 100 := by
  have hd : subUL 1000 0 = 1000 := by decide
  refine ⟨rfl, ?_, ?_, ?_, by norm_num⟩
  · norm_num [updatePosition, hpos, hspeed, hlast, hd, acceleration]
  · norm_num [updatePosition, hpos, hspeed, hlast, hd, acceleration]
  · norm_num [updatePosition, hpos, hspeed, hlast, hd, acceleration, terminalVelocity]

/-- C12 at the state written by `setup` at time 0. -/
theorem updatePosition_one_second_witness :
    (setup 0 0).pos = 0 ∧ (setup 0 0).speed = 0 ∧ (setup 0 0).last_time = 0
    ∧ (updatePosition (setup 0 0) 1000 1).speed = 9 / 1000
    ∧ (updatePosition (setup 0 0) 1000 1).pos = 9 / 2
    ∧ (updatePosition (setup 0 0) 1000 1).terminal = false :=
  have h := updatePosition_one_second (setup 0 0) rfl rfl rfl
  ⟨rfl, rfl, rfl, h.2.1, h.2.2.1, h.2.2.2.1⟩

/-- C13: for every lastTime and every elapsed duration d < 2^32, when the 32-bit counter
has advanced by d, so that timestamp = (lastTime + d) mod 2^32, the deltaT of
`updatePosition` is d: the speed and position it returns are those computed with d; in
the same way the elapsed time of `ExplodeMode` at (modeStartTime + d) mod 2^32 is d: it
leaves for Idle exactly when d > 1500. -/
theorem elapsed_wraparound (s : State) (d : Nat) (direction : Int) (button_press : Nat)
    (hd : d < 2 ^ 32) :
    subUL ((s.last_time + d) % 2 ^ 32) s.last_time = d
    ∧ (updatePosition s ((s.last_time + d) % 2 ^ 32) direction).speed
        = s.speed + direction * (9 / 1000000) * d
    ∧ (updatePosition s ((s.last_time + d) % 2 ^ 32) direction).pos
        = s.pos + s.speed + (1 / 2 : ℚ) * direction * (9 / 1000000) * d * d
    ∧ subUL ((s.started_at + d) % 2 ^ 32) s.started_at = d
    ∧ ExplodeMode s ((s.started_at + d) % 2 ^ 32) button_press
        = if d > 1500 then { s with update := ModeFn.IdleMode } else s := by
  have h1 := subUL_advance s.last_time d hd
  have h2 := subUL_advance s.started_at d hd
  refine ⟨h1, ?_, ?_, h2, ?_⟩
  · simp only [updatePosition, h1, acceleration]
  · simp only [updatePosition, h1, acceleration]
  · simp only [ExplodeMode, h2]

/-- C13 at a wrapping step: the last tick was at 4294967295 = 2^32 - 1 and ten
milliseconds later the counter reads 9; the step is computed with deltaT = 10. -/
theorem elapsed_wraparound_witness :
    (10 : Nat) < 2 ^ 32
    ∧ (wrapping.last_time + 10) % 2 ^ 32 = 9
    ∧ subUL ((wrapping.last_time + 10) % 2 ^ 32) wrapping.last_time = 10
    ∧ (updatePosition wrapping ((wrapping.last_time + 10) % 2 ^ 32) 1).speed
        = wrapping.speed + ((1 : Int) : ℚ) * (9 / 1000000) * ((10 : Nat) : ℚ) :=
  have h := elapsed_wraparound wrapping 10 1 0 (by norm_num)
  ⟨by norm_num, by decide, h.1, h.2.1⟩

/-! ## Invariants of the runs -/

/-- The property every tick keeps: the flag tells whether the speed exceeds the terminal
velocity, and in Accelerate and Friction mode the speed lies between 0 and the terminal
velocity. -/
theorem tick_keeps_bounds (stale : Nat) (s : State) (t button_press : Nat)
    (hflag : s.terminal = true ↔ s.speed > 7 / 100)
    (hmode : s.update = ModeFn.AccelerateMode ∨ s.update = ModeFn.FrictionMode →
      0 ≤ s.speed ∧ s.speed ≤ 7 / 100) :
    ((tick stale s t button_press).terminal = true
        ↔ (tick stale s t button_press).speed > 7 / 100)
    ∧ ((tick stale s t button_press).update = ModeFn.AccelerateMode
        ∨ (tick stale s t button_press).update = ModeFn.FrictionMode →
      0 ≤ (tick stale s t button_press).speed
      ∧ (tick stale s t button_press).speed ≤ 7 / 100) := by
  have hA : (0 : ℚ) ≤ (9 / 1000000) * (subUL t s.last_time : ℚ) :=
    mul_nonneg (by norm_num) (Nat.cast_nonneg _)
  cases hu : s.update with
  | IdleMode =>
    by_cases hb : button_press = 0 <;>
      simp [tick, ModeFn.call, IdleMode, hu, hb] <;> norm_num
  | AccelerateMode =>
    have hs := hmode (Or.inl hu)
    by_cases ht : s.speed + (9 / 1000000) * (subUL t s.last_time : ℚ) > 7 / 100
    · simp [tick, ModeFn.call, AccelerateMode, updatePosition, acceleration,
        terminalVelocity, hu, ht]
    · have hle : s.speed + (9 / 1000000) * (subUL t s.last_time : ℚ) ≤ 7 / 100 :=
        not_lt.mp ht
      have hge : 0 ≤ s.speed + (9 / 1000000) * (subUL t s.last_time : ℚ) := by linarith
      by_cases hb : button_press = 0 <;>
        simp [tick, ModeFn.call, AccelerateMode, updatePosition, acceleration,
          terminalVelocity, hu, ht, hb, hle, hge]
  | FrictionMode =>
    have hs := hmode (Or.inr hu)
    have hsp : (updatePosition s t (-1)).speed
        = s.speed - (9 / 1000000) * (subUL t s.last_time : ℚ) := by
      simp only [updatePosition, acceleration]
      push_cast
      ring
    have hle : s.speed - (9 / 1000000) * (subUL t s.last_time : ℚ) ≤ 7 / 100 := by linarith
    have hnt : ¬ (s.speed - (9 / 1000000) * (subUL t s.last_time : ℚ) > 7 / 100) :=
      not_lt.mpr hle
    have htm : (updatePosition s t (-1)).terminal = false := by
      have : (updatePosition s t (-1)).terminal
          = decide ((updatePosition s t (-1)).speed > terminalVelocity) := rfl
      rw [this, hsp]
      simp [terminalVelocity, hle]
    have hup : (updatePosition s t (-1)).update = ModeFn.FrictionMode := hu
    have htk : tick stale s t button_press = FrictionMode s t button_press := by
      simp [tick, ModeFn.call, hu]
    rw [htk]
    simp only [FrictionMode, hsp]
    by_cases hneg : s.speed - (9 / 1000000) * (subUL t s.last_time : ℚ) < 0
    · simp [hneg, hsp, htm, hle]
    · have hge : 0 ≤ s.speed - (9 / 1000000) * (subUL t s.last_time : ℚ) := not_lt.mp hneg
      by_cases hb : button_press = 0 <;> simp [hneg, hb, hsp, htm, hup, hle, hge]
  | ExplodeMode =>
    by_cases hd : subUL t s.started_at > 1500 <;>
      simp [tick, ModeFn.call, ExplodeMode, hu, hd, hflag]

/-- The bounds hold in every state a run reaches from a state at rest in Idle mode. -/
theorem run_keeps_bounds (inputs : List TickInput) (s : State)
    (hflag : s.terminal = true ↔ s.speed > 7 / 100)
    (hmode : s.update = ModeFn.AccelerateMode ∨ s.update = ModeFn.FrictionMode →
      0 ≤ s.speed ∧ s.speed ≤ 7 / 100) :
    ((run s inputs).terminal = true ↔ (run s inputs).speed > 7 / 100)
    ∧ ((run s inputs).update = ModeFn.AccelerateMode
        ∨ (run s inputs).update = ModeFn.FrictionMode →
      0 ≤ (run s inputs).speed ∧ (run s inputs).speed ≤ 7 / 100) := by
  induction inputs generalizing s with
  | nil => exact ⟨hflag, hmode⟩
  | cons i rest ih =>
    have hstep := tick_keeps_bounds i.stale s i.t i.button_press hflag hmode
    exact ih (tick i.stale s i.t i.button_press) hstep.1 hstep.2

/-- The bounds in every state reached from the state written by `setup`. -/
theorem reachable_bounds (t0 t1 : Nat) (inputs : List TickInput) :
    ((run (setup t0 t1) inputs).terminal = true ↔ (run (setup t0 t1) inputs).speed > 7 / 100)
    ∧ ((run (setup t0 t1) inputs).update = ModeFn.AccelerateMode
        ∨ (run (setup t0 t1) inputs).update = ModeFn.FrictionMode →
      0 ≤ (run (setup t0 t1) inputs).speed ∧ (run (setup t0 t1) inputs).speed ≤ 7 / 100) :=
  run_keeps_bounds inputs (setup t0 t1) (by norm_num [setup]) (by simp [setup])

/-- The speed a Friction tick returns. -/
theorem FrictionMode_speed (stale : Nat) (s : State) (t button_press : Nat)
    (hu : s.update = ModeFn.FrictionMode) :
    (tick stale s t button_press).speed
      = s.speed - (9 / 1000000) * (subUL t s.last_time : ℚ) := by
  have hsp : (updatePosition s t (-1)).speed
      = s.speed - (9 / 1000000) * (subUL t s.last_time : ℚ) := by
    simp only [updatePosition, acceleration]
    push_cast
    ring
  have htk : tick stale s t button_press = FrictionMode s t button_press := by
    simp [tick, ModeFn.call, hu]
  rw [htk]
  simp only [FrictionMode]
  split_ifs <;> exact hsp

/-- C17: in every state reached from the state written by `setup` by any sequence of
ticks whose mode is Accelerate or Friction, 0 <= speed <= 0.07 and terminalFlag = false;
so a Friction tick from such a state never returns terminalFlag = true, and a tick that
enters Explode is a tick of `AccelerateMode`. -/
theorem accelerate_friction_bounds (t0 t1 : Nat) (inputs : List TickInput) :
    ((run (setup t0 t1) inputs).update = ModeFn.AccelerateMode
        ∨ (run (setup t0 t1) inputs).update = ModeFn.FrictionMode →
      0 ≤ (run (setup t0 t1) inputs).speed
      ∧ (run (setup t0 t1) inputs).speed ≤ 7 / 100
      ∧ (run (setup t0 t1) inputs).terminal = false)
    ∧ (∀ i : TickInput, (run (setup t0 t1) inputs).update = ModeFn.FrictionMode →
        (tick i.stale (run (setup t0 t1) inputs) i.t i.button_press).terminal = false)
    ∧ (∀ i : TickInput,
        (tick i.stale (run (setup t0 t1) inputs) i.t i.button_press).update
          = ModeFn.ExplodeMode →
        (run (setup t0 t1) inputs).update ≠ ModeFn.ExplodeMode →
        (run (setup t0 t1) inputs).update = ModeFn.AccelerateMode) := by
  have hb := reachable_bounds t0 t1 inputs
  refine ⟨?_, ?_, ?_⟩
  · intro hm
    have hs := hb.2 hm
    refine ⟨hs.1, hs.2, ?_⟩
    cases hterm : (run (setup t0 t1) inputs).terminal with
    | false => rfl
    | true => exact absurd (hb.1.mp hterm) (not_lt.mpr hs.2)
  · intro i hu
    have hnext := tick_keeps_bounds i.stale (run (setup t0 t1) inputs) i.t i.button_press
      hb.1 hb.2
    have hs := hb.2 (Or.inr hu)
    have hA : (0 : ℚ) ≤ (9 / 1000000)
        * (subUL i.t (run (setup t0 t1) inputs).last_time : ℚ) :=
      mul_nonneg (by norm_num) (Nat.cast_nonneg _)
    have hsp : (tick i.stale (run (setup t0 t1) inputs) i.t i.button_press).speed
        = (run (setup t0 t1) inputs).speed
          - (9 / 1000000) * (subUL i.t (run (setup t0 t1) inputs).last_time : ℚ) :=
      (FrictionMode_speed i.stale (run (setup t0 t1) inputs) i.t i.button_press hu)
    cases hterm : (tick i.stale (run (setup t0 t1) inputs) i.t i.button_press).terminal with
    | false => rfl
    | true =>
      have hfast := hnext.1.mp hterm
      rw [hsp] at hfast
      linarith
  · intro i hex hne
    cases hu : (run (setup t0 t1) inputs).update with
    | IdleMode =>
      exfalso
      revert hex
      by_cases hbp : i.button_press = 0 <;> simp [tick, ModeFn.call, IdleMode, hu, hbp]
    | AccelerateMode => rfl
    | FrictionMode =>
      exfalso
      revert hex
      have hup : (updatePosition (run (setup t0 t1) inputs) i.t (-1)).update
          = ModeFn.FrictionMode := hu
      simp only [tick, ModeFn.call, hu, FrictionMode]
      split_ifs <;> simp [hup]
    | ExplodeMode => exact absurd hu hne

/-! ## The mode start time -/

/-- One more step of the example run: the tick at time 9501 ends the explosion, and the
tick at time 1001 brings the released light to rest. -/
theorem example_states_reached_later :
    tick 0 exploded 9501 0 = timedOut
    ∧ tick 0 released 1001 0 = reversed := by
  have h1 : subUL 9501 8000 = 1501 := by decide
  have h2 : subUL 1001 1 = 1000 := by decide
  refine ⟨?_, ?_⟩
  · simp [tick, ModeFn.call, exploded, ExplodeMode, h1, timedOut]
  · norm_num [tick, ModeFn.call, released, FrictionMode, updatePosition, h2,
      acceleration, terminalVelocity, reversed]

/-- Outside Idle mode the field `started_at` is the time the current mode was entered:
every tick that enters Accelerate, Friction or Explode stores its timestamp, and every
tick that stays in one of them keeps the field. -/
theorem started_at_outside_Idle (inputs : List TickInput) (s : State) (start : Nat)
    (h : s.update ≠ ModeFn.IdleMode → s.started_at = start) :
    (run s inputs).update ≠ ModeFn.IdleMode →
      (run s inputs).started_at = modeEnteredAt start s inputs := by
  induction inputs generalizing s start with
  | nil => exact h
  | cons i rest ih =>
    have hrun : run s (i :: rest) = run (tick i.stale s i.t i.button_press) rest := rfl
    have hent : modeEnteredAt start s (i :: rest)
        = modeEnteredAt
            (if (tick i.stale s i.t i.button_press).update = s.update then start else i.t)
            (tick i.stale s i.t i.button_press) rest := rfl
    rw [hrun, hent]
    apply ih
    intro hne
    cases hu : s.update with
    | IdleMode =>
      revert hne
      by_cases hb : i.button_press = 0 <;> simp [tick, ModeFn.call, IdleMode, hu, hb]
    | AccelerateMode =>
      have hst := h (by simp [hu])
      have hup : (updatePosition s i.t 1).update = ModeFn.AccelerateMode := hu
      have hsa : (updatePosition s i.t 1).started_at = s.started_at := rfl
      simp only [tick, ModeFn.call, hu, AccelerateMode]
      split_ifs <;> simp_all
    | FrictionMode =>
      have hst := h (by simp [hu])
      have hup : (updatePosition s i.t (-1)).update = ModeFn.FrictionMode := hu
      have hsa : (updatePosition s i.t (-1)).started_at = s.started_at := rfl
      revert hne
      simp only [tick, ModeFn.call, hu, FrictionMode]
      split_ifs <;> simp_all
    | ExplodeMode =>
      have hst := h (by simp [hu])
      revert hne
      simp only [tick, ModeFn.call, hu, ExplodeMode]
      split_ifs <;> simp_all

/-- C15, evaluated on the code: the run that presses at time 0, holds through the ticks
at 1000 and 8000 (where the light explodes) and ticks again at 9501 enters Idle at the
tick 9501, but the state it reaches has modeStartTime = 8000, the time Explode was
entered: `ExplodeMode` switches to `IdleMode` without storing the time. Also, a single
unpressed tick of `IdleMode` at time 5 returns in modeStartTime the value 77 that the
unassigned field happened to hold, not the start time 0. -/
theorem started_at_not_entry_time :
    run (setup 0 0) [⟨0, 0, 1⟩, ⟨0, 1000, 1⟩, ⟨0, 8000, 1⟩] = exploded
    ∧ run (setup 0 0) [⟨0, 0, 1⟩, ⟨0, 1000, 1⟩, ⟨0, 8000, 1⟩, ⟨0, 9501, 0⟩] = timedOut
    ∧ exploded.update = ModeFn.ExplodeMode
    ∧ timedOut.update = ModeFn.IdleMode
    ∧ modeEnteredAt 0 (setup 0 0) [⟨0, 0, 1⟩, ⟨0, 1000, 1⟩, ⟨0, 8000, 1⟩, ⟨0, 9501, 0⟩] = 9501
    ∧ timedOut.started_at = 8000
    ∧ (run (setup 0 0) [⟨77, 5, 0⟩]).update = ModeFn.IdleMode
    ∧ modeEnteredAt 0 (setup 0 0) [⟨77, 5, 0⟩] = 0
    ∧ (run (setup 0 0) [⟨77, 5, 0⟩]).started_at = 77 := by
  obtain ⟨h1, h2, h3, -, -⟩ := example_states_reached
  obtain ⟨h4, -⟩ := example_states_reached_later
  have hidle : tick 77 (setup 0 0) 5 0
      = { pos := 0, speed := 0, terminal := false, last_time := 5, started_at := 77,
          update := ModeFn.IdleMode } := by
    simp [tick, ModeFn.call, setup, IdleMode]
  refine ⟨?_, ?_, rfl, rfl, ?_, rfl, ?_, ?_, ?_⟩
  · simp only [run, List.foldl, h1, h2, h3]
  · simp only [run, List.foldl, h1, h2, h3, h4]
  · simp only [modeEnteredAt, h1, h2, h3, h4]
    simp [setup, pressed, heldOneSecond, exploded, timedOut]
  · simp only [run, List.foldl, hidle]
  · simp only [modeEnteredAt, hidle]
    simp [setup]
  · simp only [run, List.foldl, hidle]

/-! ## After the explosion, behind the start, and the pixel index -/

/-- C16: for every state in Explode mode with terminalFlag true and every timestamp now1
with (now1 - modeStartTime) mod 2^32 > 1500, the tick at now1 returns mode Idle with
terminalFlag still true and the speed unchanged, and the next tick, at any timestamp and
button value, returns terminalFlag false and speed 0 with the position unchanged: the
frame rendered after the first tick is still the explosion (brightness 8), the frame
rendered after the second is not (brightness 4). -/
theorem explosion_cleared_next_tick (stale1 stale2 : Nat) (s : State)
    (now1 button1 now2 button2 : Nat)
    (hmode : s.update = ModeFn.ExplodeMode) (hterm : s.terminal = true)
    (hlate : ((now1 : Int) - (s.started_at : Int)) % 2 ^ 32 > 1500) :
    (tick stale1 s now1 button1).update = ModeFn.IdleMode
    ∧ (tick stale1 s now1 button1).terminal = true
    ∧ (tick stale1 s now1 button1).speed = s.speed
    ∧ (tick stale2 (tick stale1 s now1 button1) now2 button2).terminal = false
    ∧ (tick stale2 (tick stale1 s now1 button1) now2 button2).speed = 0
    ∧ (tick stale2 (tick stale1 s now1 button1) now2 button2).pos = s.pos
    ∧ (render (tick stale1 s now1 button1) (tick stale1 s now1 button1)).brightness = 8
    ∧ (render (tick stale2 (tick stale1 s now1 button1) now2 button2)
        (tick stale2 (tick stale1 s now1 button1) now2 button2)).brightness = 4 := by
  have hc := subUL_cast now1 s.started_at
  have hd : subUL now1 s.started_at > 1500 := by omega
  have h1 : tick stale1 s now1 button1 = { s with update := ModeFn.IdleMode } := by
    simp [tick, ModeFn.call, ExplodeMode, hmode, hd]
  rw [h1]
  by_cases hb : button2 = 0 <;>
    simp [tick, ModeFn.call, IdleMode, render, hterm, hb]

/-- C16 at the example explosion: `exploded` started at time 8000; the tick at 9501 hands
over to Idle with the flag still set, and the tick at 9502 clears it. -/
theorem explosion_cleared_next_tick_witness :
    exploded.update = ModeFn.ExplodeMode
    ∧ exploded.terminal = true
    ∧ (((9501 : Nat) : Int) - ((exploded.started_at : Nat) : Int)) % 2 ^ 32 > 1500
    ∧ (tick 0 exploded 9501 0).update = ModeFn.IdleMode
    ∧ (tick 0 exploded 9501 0).terminal = true
    ∧ (tick 0 (tick 0 exploded 9501 0) 9502 0).terminal = false
    ∧ (tick 0 (tick 0 exploded 9501 0) 9502 0).speed = 0 :=
  have h := explosion_cleared_next_tick 0 0 exploded 9501 0 9502 0 rfl rfl (by decide)
  ⟨rfl, rfl, by decide, h.1, h.2.1, h.2.2.2.1, h.2.2.2.2.1⟩

/-- C18: position >= 0 is not an invariant: the run from the state written by `setup` at
time 0 that presses at time 0, releases at time 1 and ticks at time 1001 reaches a state
in Idle mode with position -4.4999865 < 0; its last tick is a Friction tick with
deltaT = 1000, which takes 0.5 * A * deltaT^2 = 4.5 off the position although the speed
left was 0.000009. -/
theorem position_can_be_negative :
    run (setup 0 0) [⟨0, 0, 1⟩, ⟨0, 1, 0⟩] = released
    ∧ released.update = ModeFn.FrictionMode
    ∧ released.speed = 9 / 1000000
    ∧ run (setup 0 0) [⟨0, 0, 1⟩, ⟨0, 1, 0⟩, ⟨0, 1001, 0⟩] = reversed
    ∧ (run (setup 0 0) [⟨0, 0, 1⟩, ⟨0, 1, 0⟩, ⟨0, 1001, 0⟩]).update = ModeFn.IdleMode
    ∧ (run (setup 0 0) [⟨0, 0, 1⟩, ⟨0, 1, 0⟩, ⟨0, 1001, 0⟩]).pos = -44999865 / 10000000
    ∧ (run (setup 0 0) [⟨0, 0, 1⟩, ⟨0, 1, 0⟩, ⟨0, 1001, 0⟩]).pos < 0
    ∧ (run (setup 0 0) [⟨0, 0, 1⟩, ⟨0, 1, 0⟩, ⟨0, 1001, 0⟩]).pos
        = released.pos + released.speed - (1 / 2 : ℚ) * (9 / 1000000) * 1000 ^ 2 := by
  obtain ⟨h1, -, -, h2, -⟩ := example_states_reached
  obtain ⟨-, h3⟩ := example_states_reached_later
  have hr2 : run (setup 0 0) [⟨0, 0, 1⟩, ⟨0, 1, 0⟩] = released := by
    simp only [run, List.foldl, h1, h2]
  have hr3 : run (setup 0 0) [⟨0, 0, 1⟩, ⟨0, 1, 0⟩, ⟨0, 1001, 0⟩] = reversed := by
    simp only [run, List.foldl, h1, h2, h3]
  rw [hr3]
  refine ⟨hr2, rfl, rfl, rfl, rfl, ?_, ?_, ?_⟩
  · norm_num [reversed]
  · norm_num [reversed]
  · norm_num [reversed, released]

/-- The conversion to `uint8_t` returns a value below 256. -/
theorem toUInt8_lt (x : ℚ) : toUInt8 x < 256 := by
  unfold toUInt8
  omega

/-- C19: for every non-terminal state the index `render` writes to, the position
converted to an 8-bit unsigned integer and reduced mod 5, is strictly less than
ledCount = 5, so that the write falls inside the array of five colours: the frame is the
dark array with the motion colour at that index; and for 0 <= position < 256 this index
is floor(position) mod 5. -/
theorem render_index_in_bounds (s : State) (hnt : s.terminal = false) :
    ledCount = 5
    ∧ toUInt8 s.pos < 256
    ∧ toUInt8 s.pos % 5 < ledCount
    ∧ (render s s).colours
        = (List.replicate ledCount offColour).set (toUInt8 s.pos % 5) motionColour
    ∧ (render s s).colours.length = ledCount
    ∧ (render s s).colours[toUInt8 s.pos % 5]? = some motionColour
    ∧ (0 ≤ s.pos → s.pos < 256 → ((toUInt8 s.pos % 5 : Nat) : Int) = ⌊s.pos⌋ % 5) := by
  have hlt : toUInt8 s.pos % 5 < 5 := Nat.mod_lt _ (by norm_num)
  have hcol : (render s s).colours
      = (List.replicate ledCount offColour).set (toUInt8 s.pos % 5) motionColour := by
    simp [render, hnt]
  refine ⟨rfl, toUInt8_lt s.pos, hlt, hcol, ?_, ?_, ?_⟩
  · rw [hcol]
    simp
  · rw [hcol]
    simp [List.getElem?_set, ledCount, hlt]
  · intro h0 h1
    have hu := toUInt8_of_inRange s.pos h0 h1
    omega

/-- C19 at the example state `heldOneSecond` (position 4.5): the index is 4. -/
theorem render_index_in_bounds_witness :
    heldOneSecond.terminal = false
    ∧ toUInt8 heldOneSecond.pos % 5 < ledCount
    ∧ (render heldOneSecond heldOneSecond).colours[toUInt8 heldOneSecond.pos % 5]?
        = some motionColour :=
  have h := render_index_in_bounds heldOneSecond rfl
  ⟨rfl, h.2.2.1, h.2.2.2.2.2.1⟩

/-! ## Rendering on the program state -/

/-- The conversion of the position of `heldLong`, 266.805, keeps the low eight bits of
266: the value 10. -/
theorem toUInt8_heldLong : toUInt8 heldLong.pos = 10 := by
  have hpos : (0 : ℚ) ≤ heldLong.pos := by norm_num [heldLong]
  have hfloor : ⌊heldLong.pos⌋ = 266 := by
    rw [Int.floor_eq_iff]
    norm_num [heldLong]
  simp [toUInt8, hpos, hfloor]

/-- C9 as amended: when `render` runs on the program state (the argument `loop` passes is
the global `state`), every state with terminalFlag false gives a colour sequence of
length 5 with brightness 4 in which exactly one pixel has the motion colour (29,106,177)
and every other pixel is off (0,0,0); the lit index is the position converted to
`uint8_t`, mod 5, which is floor(position) mod 5 for 0 <= position < 256 and 0 for
-1 < position < 0; a state with terminalFlag true gives five pixels of the impact colour
(220,127,31) with brightness 8. -/
theorem render_program_state (s : State) :
    (s.terminal = false →
      (render s s).colours.length = 5
      ∧ (render s s).count = 5
      ∧ (render s s).brightness = 4
      ∧ toUInt8 s.pos % 5 < 5
      ∧ (∀ j : Nat, j < 5 → (render s s).colours[j]?
          = some (if j = toUInt8 s.pos % 5 then (⟨29, 106, 177⟩ : rgb_color)
              else ⟨0, 0, 0⟩))
      ∧ (0 ≤ s.pos → s.pos < 256 → toUInt8 s.pos % 5 = (⌊s.pos⌋ % 5).toNat)
      ∧ (-1 < s.pos → s.pos < 0 → toUInt8 s.pos % 5 = 0))
    ∧ (s.terminal = true →
      render s s = { colours := List.replicate 5 ⟨220, 127, 31⟩, count := 5, brightness := 8 }) := by
  constructor
  · intro ht
    have hlt : toUInt8 s.pos % 5 < 5 := Nat.mod_lt _ (by norm_num)
    refine ⟨?_, ?_, ?_, hlt, ?_, ?_, ?_⟩
    · simp [render, ht, ledCount]
    · simp [render, ht, ledCount]
    · simp [render, ht]
    · intro j hj
      simp only [render, ht, ledCount, offColour, motionColour]
      simp only [Bool.false_eq_true, if_false, List.getElem?_set, List.length_replicate]
      by_cases hji : toUInt8 s.pos % 5 = j
      · simp [hji, hj]
      · have hji' : ¬ j = toUInt8 s.pos % 5 := fun h => hji h.symm
        simp [hji, hji', hj, List.getElem?_replicate]
        interval_cases j <;> rfl
    · intro h0 h1
      have hu := toUInt8_of_inRange s.pos h0 h1
      have hf0 : 0 ≤ ⌊s.pos⌋ := Int.floor_nonneg.mpr h0
      omega
    · intro h0 h1
      have hneg : ¬ (0 : ℚ) ≤ s.pos := not_le.mpr h1
      have hceil : ⌈s.pos⌉ = 0 := by
        rw [Int.ceil_eq_iff]
        constructor
        · simpa using h0
        · simpa using le_of_lt h1
      simp [toUInt8, hneg, hceil]
  · intro ht
    simp only [render, ht, if_true]
    rfl

/-- C9 as amended, at concrete states: `heldOneSecond` (position 4.5) lights pixel 4,
`stalled` (position -0.7199865) lights pixel 0, `exploded` lights the whole strip in the
impact colour. -/
theorem render_program_state_witness :
    (heldOneSecond.terminal = false ∧ 0 ≤ heldOneSecond.pos ∧ heldOneSecond.pos < 256)
    ∧ (render heldOneSecond heldOneSecond).brightness = 4
    ∧ toUInt8 heldOneSecond.pos % 5 = (⌊heldOneSecond.pos⌋ % 5).toNat
    ∧ (stalled.terminal = false ∧ -1 < stalled.pos ∧ stalled.pos < 0)
    ∧ toUInt8 stalled.pos % 5 = 0
    ∧ exploded.terminal = true
    ∧ render exploded exploded
        = { colours := List.replicate 5 ⟨220, 127, 31⟩, count := 5, brightness := 8 } :=
  have h0 : 0 ≤ heldOneSecond.pos := by norm_num [heldOneSecond]
  have h1 : heldOneSecond.pos < 256 := by norm_num [heldOneSecond]
  have h2 : -1 < stalled.pos := by norm_num [stalled]
  have h3 : stalled.pos < 0 := by norm_num [stalled]
  ⟨⟨rfl, h0, h1⟩, ((render_program_state heldOneSecond).1 rfl).2.2.1,
    ((render_program_state heldOneSecond).1 rfl).2.2.2.2.2.1 h0 h1, ⟨rfl, h2, h3⟩,
    ((render_program_state stalled).1 rfl).2.2.2.2.2.2 h2 h3, rfl,
    (render_program_state exploded).2 rfl⟩

/-- C9 as stated fails, below 0 and from 256 on. The state `stalled` has terminalFlag
false and position -0.7199865, so floor(position) mod 5 = 4, but `render` lights pixel 0
and leaves pixel 4 off: the conversion drops the fraction towards zero. The state
`heldLong` has terminalFlag false and position 266.805, so floor(position) mod 5 = 1, but
`render` lights pixel 0 and leaves pixel 1 off: the conversion keeps 266 - 256 = 10. -/
theorem render_index_not_floor :
    stalled.terminal = false
    ∧ ⌊stalled.pos⌋ = -1
    ∧ (⌊stalled.pos⌋ % 5).toNat = 4
    ∧ (render stalled stalled).colours[0]? = some ⟨29, 106, 177⟩
    ∧ (render stalled stalled).colours[4]? = some ⟨0, 0, 0⟩
    ∧ ¬ (∀ j : Nat, j < 5 → (render stalled stalled).colours[j]?
          = some (if j = (⌊stalled.pos⌋ % 5).toNat then (⟨29, 106, 177⟩ : rgb_color)
              else ⟨0, 0, 0⟩))
    ∧ tick 0 pressed 7700 1 = heldLong
    ∧ heldLong.terminal = false
    ∧ ⌊heldLong.pos⌋ = 266
    ∧ (⌊heldLong.pos⌋ % 5).toNat = 1
    ∧ (render heldLong heldLong).colours[0]? = some ⟨29, 106, 177⟩
    ∧ (render heldLong heldLong).colours[1]? = some ⟨0, 0, 0⟩
    ∧ ¬ (∀ j : Nat, j < 5 → (render heldLong heldLong).colours[j]?
          = some (if j = (⌊heldLong.pos⌋ % 5).toNat then (⟨29, 106, 177⟩ : rgb_color)
              else ⟨0, 0, 0⟩)) := by
  have hfloor : ⌊stalled.pos⌋ = -1 := by
    rw [Int.floor_eq_iff]
    norm_num [stalled]
  have hr : render stalled stalled
      = { colours := [⟨29, 106, 177⟩, ⟨0, 0, 0⟩, ⟨0, 0, 0⟩, ⟨0, 0, 0⟩, ⟨0, 0, 0⟩],
          count := 5, brightness := 4 } := by
    have ht : stalled.terminal = false := rfl
    simp only [render, ht, toUInt8_stalled]
    rfl
  have hfloor2 : ⌊heldLong.pos⌋ = 266 := by
    rw [Int.floor_eq_iff]
    norm_num [heldLong]
  have hr2 : render heldLong heldLong
      = { colours := [⟨29, 106, 177⟩, ⟨0, 0, 0⟩, ⟨0, 0, 0⟩, ⟨0, 0, 0⟩, ⟨0, 0, 0⟩],
          count := 5, brightness := 4 } := by
    have ht : heldLong.terminal = false := rfl
    simp only [render, ht, toUInt8_heldLong]
    rfl
  have hreach : tick 0 pressed 7700 1 = heldLong := by
    have hd : subUL 7700 0 = 7700 := by decide
    norm_num [tick, ModeFn.call, pressed, AccelerateMode, updatePosition, hd,
      acceleration, terminalVelocity, heldLong]
  refine ⟨rfl, hfloor, ?_, ?_, ?_, ?_, hreach, rfl, hfloor2, ?_, ?_, ?_, ?_⟩
  · rw [hfloor]; rfl
  · rw [hr]; rfl
  · rw [hr]; rfl
  · intro h
    have h4 := h 4 (by norm_num)
    rw [hr, hfloor] at h4
    revert h4
    decide
  · rw [hfloor2]; rfl
  · rw [hr2]; rfl
  · rw [hr2]; rfl
  · intro h
    have h1 := h 1 (by norm_num)
    rw [hr2, hfloor2] at h1
    revert h1
    decide

theorem roundHalfEven_floor_le (q : ℚ) : ⌊q⌋ ≤ roundHalfEven q := by
  unfold roundHalfEven
  split_ifs <;> omega

theorem roundHalfEven_le_floor_succ (q : ℚ) : roundHalfEven q ≤ ⌊q⌋ + 1 := by
  unfold roundHalfEven
  split_ifs <;> omega

theorem roundHalfEven_intCast (n : Int) : roundHalfEven (n : ℚ) = n := by
  simp [roundHalfEven]

theorem roundHalfEven_mono {x y : ℚ} (h : x ≤ y) : roundHalfEven x ≤ roundHalfEven y := by
  have hf : ⌊x⌋ ≤ ⌊y⌋ := Int.floor_mono h
  rcases lt_or_eq_of_le hf with hlt | heq
  · have := roundHalfEven_le_floor_succ x
    have := roundHalfEven_floor_le y
    omega
  · unfold roundHalfEven
    rw [← heq]
    have hxy : x - ⌊x⌋ ≤ y - ⌊x⌋ := by linarith
    split_ifs <;> first | omega | (exfalso; linarith)

theorem roundHalfEven_neg (q : ℚ) : roundHalfEven (-q) = -roundHalfEven q := by
  by_cases hq : (⌊q⌋ : ℚ) = q
  · rw [← hq, ← Int.cast_neg, roundHalfEven_intCast, roundHalfEven_intCast]
  · have hlt : (⌊q⌋ : ℚ) < q := lt_of_le_of_ne (Int.floor_le q) hq
    have hlt2 : q < ⌊q⌋ + 1 := Int.lt_floor_add_one q
    have hfl : ⌊-q⌋ = -⌊q⌋ - 1 := by
      rw [Int.floor_eq_iff]
      push_cast
      constructor <;> linarith
    unfold roundHalfEven
    rw [hfl]
    push_cast
    split_ifs <;> first | omega | (exfalso; linarith)

theorem roundHalfEven_eq_of_near (q : ℚ) (m : Int) (h1 : (m : ℚ) - 1 / 2 < q)
    (h2 : q < m + 1 / 2) : roundHalfEven q = m := by
  by_cases hm : (m : ℚ) ≤ q
  · have hfl : ⌊q⌋ = m := by
      rw [Int.floor_eq_iff]
      constructor <;> linarith
    unfold roundHalfEven
    rw [hfl]
    have : q - m < 1 / 2 := by linarith
    rw [if_pos this]
  · have hm' : q < m := not_le.mp hm
    have hfl : ⌊q⌋ = m - 1 := by
      rw [Int.floor_eq_iff]
      push_cast
      constructor <;> linarith
    unfold roundHalfEven
    rw [hfl]
    push_cast
    have h3 : ¬ (q - (m - 1) < 1 / 2) := by
      intro h
      linarith
    have h4 : (1 : ℚ) / 2 < q - (m - 1) := by linarith
    rw [if_neg h3, if_pos h4]
    ring

theorem roundHalfEven_tie (f : Int) :
    roundHalfEven ((f : ℚ) + 1 / 2) = if f % 2 = 0 then f else f + 1 := by
  have hfl : ⌊(f : ℚ) + 1 / 2⌋ = f := by
    rw [Int.floor_eq_iff]
    constructor <;> norm_num
  unfold roundHalfEven
  rw [hfl]
  norm_num

theorem ulpExponent_neg (q : ℚ) : ulpExponent (-q) = ulpExponent q := by
  simp [ulpExponent]

theorem roundToGrid_neg (q : ℚ) : roundToGrid (-q) = -roundToGrid q := by
  unfold roundToGrid
  rw [ulpExponent_neg, neg_div, roundHalfEven_neg]
  push_cast
  ring

theorem roundToGrid_zero : roundToGrid 0 = 0 := by
  simp [roundToGrid, roundHalfEven]

theorem two_zpow_pos (p : Int) : (0 : ℚ) < 2 ^ p := zpow_pos (by norm_num) p

theorem two_zpow_mono {a b : Int} (h : a ≤ b) : (2 : ℚ) ^ a ≤ 2 ^ b :=
  zpow_le_zpow_right₀ (by norm_num) h

theorem log_le_self_pow {x : ℚ} (hx : 0 < x) : (2 : ℚ) ^ Int.log 2 x ≤ x := by
  have := Int.zpow_log_le_self (b := 2) (by norm_num) hx
  simpa using this

theorem self_lt_pow_log_succ (x : ℚ) : x < (2 : ℚ) ^ (Int.log 2 x + 1) := by
  have := Int.lt_zpow_succ_log_self (b := 2) (by norm_num) x
  simpa using this

theorem ulpExponent_of_pos {x : ℚ} (hx : 0 < x) :
    ulpExponent x = max (Int.log 2 x) (-126) - 23 := by
  simp [ulpExponent, abs_of_pos hx]

/-- A positive value rounds to at most the next power of two above it. -/
theorem roundToGrid_le_pow {x : ℚ} (hx : 0 < x) :
    roundToGrid x ≤ 2 ^ (ulpExponent x + 24) := by
  have hp := two_zpow_pos (ulpExponent x)
  have h1 : x < 2 ^ (ulpExponent x + 24) := by
    refine lt_of_lt_of_le (self_lt_pow_log_succ x) (two_zpow_mono ?_)
    rw [ulpExponent_of_pos hx]
    have := le_max_left (Int.log 2 x) (-126)
    omega
  have h2 : x / 2 ^ ulpExponent x ≤ ((2 ^ 24 : Int) : ℚ) := by
    rw [div_le_iff₀ hp]
    rw [zpow_add₀ (by norm_num : (2 : ℚ) ≠ 0)] at h1
    have : (2 : ℚ) ^ (24 : Int) = ((2 ^ 24 : Int) : ℚ) := by norm_num
    rw [this, mul_comm] at h1
    exact le_of_lt h1
  have h3 := roundHalfEven_mono h2
  rw [roundHalfEven_intCast] at h3
  have h4 : (roundHalfEven (x / 2 ^ ulpExponent x) : ℚ) ≤ ((2 ^ 24 : Int) : ℚ) := by
    exact_mod_cast h3
  unfold roundToGrid
  rw [zpow_add₀ (by norm_num : (2 : ℚ) ≠ 0), mul_comm ((2 : ℚ) ^ ulpExponent x)]
  have : (2 : ℚ) ^ (24 : Int) = ((2 ^ 24 : Int) : ℚ) := by norm_num
  rw [this]
  exact mul_le_mul_of_nonneg_right h4 (le_of_lt hp)

/-- A positive value in the normal range rounds to at least the power of two below it. -/
theorem pow_le_roundToGrid {x : ℚ} (hx : 0 < x) (hn : -126 ≤ Int.log 2 x) :
    (2 : ℚ) ^ (ulpExponent x + 23) ≤ roundToGrid x := by
  have hp := two_zpow_pos (ulpExponent x)
  have he : ulpExponent x + 23 = Int.log 2 x := by
    rw [ulpExponent_of_pos hx, max_eq_left hn]
    ring
  have h1 : (2 : ℚ) ^ (ulpExponent x + 23) ≤ x := by
    rw [he]
    exact log_le_self_pow hx
  have h2 : ((2 ^ 23 : Int) : ℚ) ≤ x / 2 ^ ulpExponent x := by
    rw [le_div_iff₀ hp]
    rw [zpow_add₀ (by norm_num : (2 : ℚ) ≠ 0)] at h1
    have : (2 : ℚ) ^ (23 : Int) = ((2 ^ 23 : Int) : ℚ) := by norm_num
    rw [this, mul_comm] at h1
    exact h1
  have h3 := roundHalfEven_mono h2
  rw [roundHalfEven_intCast] at h3
  have h4 : ((2 ^ 23 : Int) : ℚ) ≤ (roundHalfEven (x / 2 ^ ulpExponent x) : ℚ) := by
    exact_mod_cast h3
  unfold roundToGrid
  rw [zpow_add₀ (by norm_num : (2 : ℚ) ≠ 0), mul_comm ((2 : ℚ) ^ ulpExponent x)]
  have : (2 : ℚ) ^ (23 : Int) = ((2 ^ 23 : Int) : ℚ) := by norm_num
  rw [this]
  exact mul_le_mul_of_nonneg_right h4 (le_of_lt hp)

theorem roundToGrid_nonneg {x : ℚ} (hx : 0 ≤ x) : 0 ≤ roundToGrid x := by
  have hp := two_zpow_pos (ulpExponent x)
  have h2 : ((0 : Int) : ℚ) ≤ x / 2 ^ ulpExponent x := by
    simpa using div_nonneg hx (le_of_lt hp)
  have h3 := roundHalfEven_mono h2
  rw [roundHalfEven_intCast] at h3
  have h4 : (0 : ℚ) ≤ (roundHalfEven (x / 2 ^ ulpExponent x) : ℚ) := by exact_mod_cast h3
  exact mul_nonneg h4 (le_of_lt hp)

theorem roundToGrid_mono_pos {x y : ℚ} (hx : 0 < x) (h : x ≤ y) :
    roundToGrid x ≤ roundToGrid y := by
  have hy : 0 < y := lt_of_lt_of_le hx h
  have hlog : Int.log 2 x ≤ Int.log 2 y := Int.log_mono_right hx h
  have hux := ulpExponent_of_pos hx
  have huy := ulpExponent_of_pos hy
  have hle : ulpExponent x ≤ ulpExponent y := by
    rw [hux, huy]
    have := max_le_max hlog (le_refl (-126 : Int))
    omega
  rcases lt_or_eq_of_le hle with hlt | heq
  · have hn : -126 ≤ Int.log 2 y := by
      by_contra hcon
      have h1 : max (Int.log 2 y) (-126) = -126 := max_eq_right (by omega)
      have h2 := le_max_right (Int.log 2 x) (-126)
      omega
    have h1 := roundToGrid_le_pow hx
    have h2 := pow_le_roundToGrid hy hn
    have h3 : (2 : ℚ) ^ (ulpExponent x + 24) ≤ 2 ^ (ulpExponent y + 23) :=
      two_zpow_mono (by omega)
    linarith
  · unfold roundToGrid
    rw [heq]
    have hp := two_zpow_pos (ulpExponent y)
    have h1 : x / 2 ^ ulpExponent y ≤ y / 2 ^ ulpExponent y :=
      div_le_div_of_nonneg_right h (le_of_lt hp)
    have h2 := roundHalfEven_mono h1
    have h3 : (roundHalfEven (x / 2 ^ ulpExponent y) : ℚ)
        ≤ (roundHalfEven (y / 2 ^ ulpExponent y) : ℚ) := by exact_mod_cast h2
    exact mul_le_mul_of_nonneg_right h3 (le_of_lt hp)

/-- Rounding to binary32 is monotone. -/
theorem roundToGrid_mono {x y : ℚ} (h : x ≤ y) : roundToGrid x ≤ roundToGrid y := by
  rcases lt_trichotomy 0 x with hx | hx | hx
  · exact roundToGrid_mono_pos hx h
  · rw [← hx, roundToGrid_zero]
    exact roundToGrid_nonneg (by linarith)
  · rcases le_or_lt 0 y with hy | hy
    · have h1 : 0 ≤ roundToGrid (-x) := roundToGrid_nonneg (by linarith)
      rw [roundToGrid_neg] at h1
      have h2 := roundToGrid_nonneg hy
      linarith
    · have h1 : roundToGrid (-y) ≤ roundToGrid (-x) :=
        roundToGrid_mono_pos (by linarith) (by linarith)
      rw [roundToGrid_neg, roundToGrid_neg] at h1
      linarith

theorem log_eq_of_bounds {x : ℚ} {e : Int} (hx : 0 < x) (h1 : (2 : ℚ) ^ e ≤ x)
    (h2 : x < (2 : ℚ) ^ (e + 1)) : Int.log 2 x = e := by
  have a : e ≤ Int.log 2 x := by
    rw [← Int.zpow_le_iff_le_log (b := 2) (by norm_num) hx]
    simpa using h1
  have b : Int.log 2 x < e + 1 := by
    rw [← Int.lt_zpow_iff_log_lt (b := 2) (by norm_num) hx]
    simpa using h2
  omega

theorem ulpExponent_ge (q : ℚ) : -149 ≤ ulpExponent q := by
  unfold ulpExponent
  have := le_max_right (Int.log 2 |q|) (-126)
  omega

/-- A value that is a whole number of units in its last place rounds to itself. -/
theorem roundToGrid_of_ulp (y : ℚ) (k : Int) (h : y = k * 2 ^ ulpExponent y) :
    roundToGrid y = y := by
  have hp := two_zpow_pos (ulpExponent y)
  have hk : y / 2 ^ ulpExponent y = (k : ℚ) := by
    rw [div_eq_iff (ne_of_gt hp)]
    exact h
  unfold roundToGrid
  rw [hk, roundHalfEven_intCast]
  exact h.symm

theorem roundToGrid_fixed_pos (m p : Int) (hm0 : 0 < m) (hm : m ≤ 2 ^ 24) (hp : -149 ≤ p)
    (h : 2 ^ 23 ≤ m ∨ p = -149) : roundToGrid (m * 2 ^ p) = m * 2 ^ p := by
  have hpp := two_zpow_pos p
  have hmq : (0 : ℚ) < m := by exact_mod_cast hm0
  have hy : (0 : ℚ) < m * 2 ^ p := mul_pos hmq hpp
  have e23 : (2 : ℚ) ^ (23 : Int) = ((2 ^ 23 : Int) : ℚ) := by norm_num
  have e24 : (2 : ℚ) ^ (24 : Int) = ((2 ^ 24 : Int) : ℚ) := by norm_num
  by_cases h24 : m = 2 ^ 24
  · -- the value is the power of two `2 ^ (p + 24)`
    have hval : (m : ℚ) * 2 ^ p = 2 ^ (p + 24) := by
      rw [zpow_add₀ (by norm_num : (2 : ℚ) ≠ 0), e24, h24]
      ring
    have hlog : Int.log 2 ((m : ℚ) * 2 ^ p) = p + 24 := by
      apply log_eq_of_bounds hy
      · rw [hval]
      · rw [hval]
        exact zpow_lt_zpow_right₀ (by norm_num) (by omega)
    have hu : ulpExponent ((m : ℚ) * 2 ^ p) = p + 1 := by
      rw [ulpExponent_of_pos hy, hlog, max_eq_left (by omega)]
      ring
    apply roundToGrid_of_ulp _ (2 ^ 23)
    rw [hu, hval, ← e23, ← zpow_add₀ (by norm_num : (2 : ℚ) ≠ 0)]
    congr 1
    ring
  · have hlt : m < 2 ^ 24 := lt_of_le_of_ne hm h24
    have hltq : (m : ℚ) < ((2 ^ 24 : Int) : ℚ) := by exact_mod_cast hlt
    have hupper : (m : ℚ) * 2 ^ p < 2 ^ (p + 24) := by
      rw [zpow_add₀ (by norm_num : (2 : ℚ) ≠ 0), e24, mul_comm ((2 : ℚ) ^ p)]
      exact mul_lt_mul_of_pos_right hltq hpp
    by_cases h23 : 2 ^ 23 ≤ m
    · have hgeq : ((2 ^ 23 : Int) : ℚ) ≤ (m : ℚ) := by exact_mod_cast h23
      have hlower : (2 : ℚ) ^ (p + 23) ≤ (m : ℚ) * 2 ^ p := by
        rw [zpow_add₀ (by norm_num : (2 : ℚ) ≠ 0), e23, mul_comm ((2 : ℚ) ^ p)]
        exact mul_le_mul_of_nonneg_right hgeq (le_of_lt hpp)
      have hlog : Int.log 2 ((m : ℚ) * 2 ^ p) = p + 23 := by
        apply log_eq_of_bounds hy hlower
        have : p + 23 + 1 = p + 24 := by ring
        rw [this]
        exact hupper
      have hu : ulpExponent ((m : ℚ) * 2 ^ p) = p := by
        rw [ulpExponent_of_pos hy, hlog, max_eq_left (by omega)]
        ring
      apply roundToGrid_of_ulp _ m
      rw [hu]
    · have hp149 : p = -149 := by
        rcases h with h | h
        · exact absurd h h23
        · exact h
      have hlt23 : m < 2 ^ 23 := not_le.mp h23
      have hltq23 : (m : ℚ) < ((2 ^ 23 : Int) : ℚ) := by exact_mod_cast hlt23
      have hsmall : (m : ℚ) * 2 ^ p < 2 ^ (-126 : Int) := by
        have : (2 : ℚ) ^ (-126 : Int) = ((2 ^ 23 : Int) : ℚ) * 2 ^ p := by
          rw [hp149, ← e23, ← zpow_add₀ (by norm_num : (2 : ℚ) ≠ 0)]
          norm_num
        rw [this]
        exact mul_lt_mul_of_pos_right hltq23 hpp
      have hlog : Int.log 2 ((m : ℚ) * 2 ^ p) < -126 := by
        rw [← Int.lt_zpow_iff_log_lt (b := 2) (by norm_num) hy]
        simpa using hsmall
      have hu : ulpExponent ((m : ℚ) * 2 ^ p) = p := by
        rw [ulpExponent_of_pos hy, max_eq_right (by omega), hp149]
        ring
      apply roundToGrid_of_ulp _ m
      rw [hu]

/-- Every binary32 value `m * 2 ^ p` (at most 24 significant bits; normal, or at the
subnormal spacing) rounds to itself. -/
theorem roundToGrid_fixed (m p : Int) (hm : |m| ≤ 2 ^ 24) (hp : -149 ≤ p)
    (h : 2 ^ 23 ≤ |m| ∨ p = -149) : roundToGrid (m * 2 ^ p) = m * 2 ^ p := by
  rcases lt_trichotomy 0 m with h0 | h0 | h0
  · rw [abs_of_pos h0] at hm h
    exact roundToGrid_fixed_pos m p h0 hm hp h
  · rw [← h0]
    simp [roundToGrid_zero]
  · rw [abs_of_neg h0] at hm h
    have := roundToGrid_fixed_pos (-m) p (by omega) hm hp h
    have e : ((-m : Int) : ℚ) * 2 ^ p = -((m : ℚ) * 2 ^ p) := by
      push_cast
      ring
    rw [e, roundToGrid_neg] at this
    linarith

theorem mantissa_le {x : ℚ} (hx : 0 < x) : roundHalfEven (x / 2 ^ ulpExponent x) ≤ 2 ^ 24 := by
  have hp := two_zpow_pos (ulpExponent x)
  have h1 : x < 2 ^ (ulpExponent x + 24) := by
    refine lt_of_lt_of_le (self_lt_pow_log_succ x) (two_zpow_mono ?_)
    rw [ulpExponent_of_pos hx]
    have := le_max_left (Int.log 2 x) (-126)
    omega
  have h2 : x / 2 ^ ulpExponent x ≤ ((2 ^ 24 : Int) : ℚ) := by
    rw [div_le_iff₀ hp]
    rw [zpow_add₀ (by norm_num : (2 : ℚ) ≠ 0)] at h1
    have : (2 : ℚ) ^ (24 : Int) = ((2 ^ 24 : Int) : ℚ) := by norm_num
    rw [this, mul_comm] at h1
    exact le_of_lt h1
  have h3 := roundHalfEven_mono h2
  rwa [roundHalfEven_intCast] at h3

theorem mantissa_ge {x : ℚ} (hx : 0 < x) (hn : -126 ≤ Int.log 2 x) :
    2 ^ 23 ≤ roundHalfEven (x / 2 ^ ulpExponent x) := by
  have hp := two_zpow_pos (ulpExponent x)
  have he : ulpExponent x + 23 = Int.log 2 x := by
    rw [ulpExponent_of_pos hx, max_eq_left hn]
    ring
  have h1 : (2 : ℚ) ^ (ulpExponent x + 23) ≤ x := by
    rw [he]
    exact log_le_self_pow hx
  have h2 : ((2 ^ 23 : Int) : ℚ) ≤ x / 2 ^ ulpExponent x := by
    rw [le_div_iff₀ hp]
    rw [zpow_add₀ (by norm_num : (2 : ℚ) ≠ 0)] at h1
    have : (2 : ℚ) ^ (23 : Int) = ((2 ^ 23 : Int) : ℚ) := by norm_num
    rw [this, mul_comm] at h1
    exact h1
  have h3 := roundHalfEven_mono h2
  rwa [roundHalfEven_intCast] at h3

theorem mantissa_nonneg {x : ℚ} (hx : 0 ≤ x) : 0 ≤ roundHalfEven (x / 2 ^ ulpExponent x) := by
  have hp := two_zpow_pos (ulpExponent x)
  have h2 : ((0 : Int) : ℚ) ≤ x / 2 ^ ulpExponent x := by
    simpa using div_nonneg hx (le_of_lt hp)
  have h3 := roundHalfEven_mono h2
  rwa [roundHalfEven_intCast] at h3

theorem roundToGrid_idem_pos {x : ℚ} (hx : 0 < x) :
    roundToGrid (roundToGrid x) = roundToGrid x := by
  have hm0 := mantissa_nonneg (le_of_lt hx)
  have hm1 := mantissa_le hx
  unfold roundToGrid
  apply roundToGrid_fixed _ _ _ (ulpExponent_ge x)
  · by_cases hn : -126 ≤ Int.log 2 x
    · left
      rw [abs_of_nonneg hm0]
      exact mantissa_ge hx hn
    · right
      rw [ulpExponent_of_pos hx, max_eq_right (by omega)]
      ring
  · rw [abs_of_nonneg hm0]
    exact hm1

/-- Rounding a rounded value changes nothing. -/
theorem roundToGrid_idem (x : ℚ) : roundToGrid (roundToGrid x) = roundToGrid x := by
  rcases lt_trichotomy 0 x with hx | hx | hx
  · exact roundToGrid_idem_pos hx
  · rw [← hx, roundToGrid_zero, roundToGrid_zero]
  · have := roundToGrid_idem_pos (x := -x) (by linarith)
    rw [roundToGrid_neg, roundToGrid_neg] at this
    linarith

/-- Evaluation of a rounding: a positive `q` in the binade `[2 ^ (p + 23), 2 ^ (p + 24))`
that lies within half a unit of `m * 2 ^ p` rounds to it. -/
theorem roundToGrid_eval (q : ℚ) (p m : Int) (hq : 0 < q) (he1 : (2 : ℚ) ^ (p + 23) ≤ q)
    (he2 : q < (2 : ℚ) ^ (p + 24)) (hp : -149 ≤ p) (h1 : (m : ℚ) - 1 / 2 < q / 2 ^ p)
    (h2 : q / 2 ^ p < (m : ℚ) + 1 / 2) : roundToGrid q = (m : ℚ) * 2 ^ p := by
  have hlog : Int.log 2 q = p + 23 := by
    apply log_eq_of_bounds hq he1
    have : p + 23 + 1 = p + 24 := by ring
    rw [this]
    exact he2
  have hu : ulpExponent q = p := by
    rw [ulpExponent_of_pos hq, hlog, max_eq_left (by omega)]
    ring
  unfold roundToGrid
  rw [hu, roundHalfEven_eq_of_near _ m h1 h2]

/-- Evaluation of a rounding at a tie: the even neighbour is taken. -/
theorem roundToGrid_eval_tie (q : ℚ) (p f : Int) (hq : 0 < q)
    (he1 : (2 : ℚ) ^ (p + 23) ≤ q) (he2 : q < (2 : ℚ) ^ (p + 24)) (hp : -149 ≤ p)
    (h : q / 2 ^ p = (f : ℚ) + 1 / 2) :
    roundToGrid q = ((if f % 2 = 0 then f else f + 1 : Int) : ℚ) * 2 ^ p := by
  have hlog : Int.log 2 q = p + 23 := by
    apply log_eq_of_bounds hq he1
    have : p + 23 + 1 = p + 24 := by ring
    rw [this]
    exact he2
  have hu : ulpExponent q = p := by
    rw [ulpExponent_of_pos hq, hlog, max_eq_left (by omega)]
    ring
  unfold roundToGrid
  rw [hu, h, roundHalfEven_tie]

theorem roundToGrid_pow127 : roundToGrid (2 ^ 127) = 2 ^ 127 := by
  have := roundToGrid_fixed (2 ^ 23) 104 (by norm_num) (by norm_num) (Or.inl (by norm_num))
  have e : (((2 ^ 23 : Int) : ℚ)) * 2 ^ (104 : Int) = 2 ^ 127 := by norm_num
  rwa [e] at this

/-- No overflow: a result of magnitude at most `2 ^ 127` rounds to a finite value, of
magnitude at most `2 ^ 127`. -/
theorem round32_of_abs_le (q : ℚ) (h : |q| ≤ 2 ^ 127) :
    round32 q = Float32.finite (roundToGrid q) ∧ |roundToGrid q| ≤ 2 ^ 127 := by
  have hb := abs_le.mp h
  have h1 : roundToGrid q ≤ 2 ^ 127 := by
    have := roundToGrid_mono hb.2
    rwa [roundToGrid_pow127] at this
  have h2 : -(2 ^ 127) ≤ roundToGrid q := by
    have := roundToGrid_mono hb.1
    rwa [roundToGrid_neg, roundToGrid_pow127] at this
  have h3 : |roundToGrid q| ≤ 2 ^ 127 := abs_le.mpr ⟨h2, h1⟩
  refine ⟨?_, h3⟩
  unfold round32
  rw [if_neg]
  intro hcon
  have : (2 : ℚ) ^ 127 < 2 ^ 128 := by norm_num
  linarith

/-- A binary32 value `m * 2 ^ p` of magnitude at most `2 ^ 127` is returned as it is. -/
theorem round32_fixed (m p : Int) (hm : |m| ≤ 2 ^ 24) (hp : -149 ≤ p)
    (h : 2 ^ 23 ≤ |m| ∨ p = -149) (hb : |(m : ℚ) * 2 ^ p| ≤ 2 ^ 127) :
    round32 ((m : ℚ) * 2 ^ p) = Float32.finite ((m : ℚ) * 2 ^ p) := by
  rw [(round32_of_abs_le _ hb).1, roundToGrid_fixed m p hm hp h]

theorem round32_zero : round32 0 = Float32.finite 0 := by
  have := round32_fixed 0 (-149) (by norm_num) (by norm_num) (Or.inr rfl) (by norm_num)
  simpa using this

theorem round32_one : round32 1 = Float32.finite 1 := by
  have := round32_fixed (2 ^ 23) (-23) (by norm_num) (by norm_num) (Or.inl (by norm_num))
    (by norm_num)
  have e : (((2 ^ 23 : Int) : ℚ)) * 2 ^ (-23 : Int) = 1 := by norm_num
  rwa [e] at this

theorem round32_neg_one : round32 (-1) = Float32.finite (-1) := by
  have := round32_fixed (-2 ^ 23) (-23) (by norm_num) (by norm_num) (Or.inl (by norm_num))
    (by norm_num)
  have e : (((-2 ^ 23 : Int) : ℚ)) * 2 ^ (-23 : Int) = -1 := by norm_num
  rwa [e] at this

namespace Binary32

/-- The constant `acceleration` is 9895605 / 2^40, a little above 0.000009. -/
theorem acceleration_value : acceleration = Float32.finite (9895605 / 2 ^ 40) := by
  have hg : roundToGrid (9 / 1000000) = ((9895605 : Int) : ℚ) * 2 ^ (-40 : Int) :=
    roundToGrid_eval _ (-40) 9895605 (by norm_num) (by norm_num) (by norm_num) (by norm_num)
      (by norm_num) (by norm_num)
  have hr := (round32_of_abs_le (9 / 1000000) (by norm_num [abs_of_pos])).1
  unfold acceleration
  rw [hr, hg]
  norm_num

/-- The constant `terminalVelocity` is 9395241 / 2^27, a little above 0.07. -/
theorem terminalVelocity_value : terminalVelocity = Float32.finite (9395241 / 2 ^ 27) := by
  have hg : roundToGrid (7 / 100) = ((9395241 : Int) : ℚ) * 2 ^ (-27 : Int) :=
    roundToGrid_eval _ (-27) 9395241 (by norm_num) (by norm_num) (by norm_num) (by norm_num)
      (by norm_num) (by norm_num)
  have hr := (round32_of_abs_le (7 / 100) (by norm_num [abs_of_pos])).1
  unfold terminalVelocity
  rw [hr, hg]
  norm_num

/-! ## The integrator and the modes in binary32 -/

theorem lt_self_false (v : ℚ) : Float32.lt (Float32.finite v) (Float32.finite v) = false := by
  simp [Float32.lt]

/-- C2: for every state, timestamp and direction in {+1, -1}, `updatePosition` returns
speed' = speed + direction * A * deltaT, the sum and the two products being `float`
operations, A the `float` constant 0.000009 (9895605 / 2^40) and deltaT the difference
timestamp - lastTime modulo 2^32; terminalFlag' = (speed' > V_term), the comparison of
`float` values with V_term the `float` constant 0.07 (9395241 / 2^27); lastTime' =
timestamp; and the old modeStartTime and mode. -/
theorem updatePosition_speed_flag_time (s : State) (now : Nat) (direction : Int)
    (hdir : direction = 1 ∨ direction = -1) :
    (updatePosition s now direction).speed
        = Float32.add s.speed
            (Float32.mul (Float32.mul (Float32.ofInt direction) acceleration)
              (Float32.ofNat (((now : Int) - (s.last_time : Int)) % 2 ^ 32).toNat))
    ∧ (updatePosition s now direction).terminal
        = Float32.lt terminalVelocity (updatePosition s now direction).speed
    ∧ (updatePosition s now direction).last_time = now
    ∧ (updatePosition s now direction).started_at = s.started_at
    ∧ (updatePosition s now direction).update = s.update
    ∧ acceleration = Float32.finite (9895605 / 2 ^ 40)
    ∧ terminalVelocity = Float32.finite (9395241 / 2 ^ 27) := by
  refine ⟨?_, rfl, rfl, rfl, rfl, acceleration_value, terminalVelocity_value⟩
  have hc : (((now : Int) - (s.last_time : Int)) % 2 ^ 32).toNat = subUL now s.last_time := by
    have := subUL_cast now s.last_time
    omega
  rw [hc]
  rfl

/-- The speed a tick of no duration computes from the speed 9395241 / 2^27: the same. -/
theorem cruising_speed :
    Float32.add cruising.speed
        (Float32.mul (Float32.mul (Float32.ofInt 1) acceleration)
          (Float32.ofNat (subUL 8000 cruising.last_time)))
      = terminalVelocity := by
  have hd : subUL 8000 cruising.last_time = 0 := by decide
  have hA : round32 (9895605 / 2 ^ 40) = Float32.finite (9895605 / 2 ^ 40) := by
    have := round32_fixed 9895605 (-40) (by norm_num) (by norm_num) (Or.inl (by norm_num))
      (by norm_num [abs_of_pos])
    have e : ((9895605 : Int) : ℚ) * 2 ^ (-40 : Int) = 9895605 / 2 ^ 40 := by norm_num
    rwa [e] at this
  have hV : round32 (9395241 / 2 ^ 27) = Float32.finite (9395241 / 2 ^ 27) := by
    have := round32_fixed 9395241 (-27) (by norm_num) (by norm_num) (Or.inl (by norm_num))
      (by norm_num [abs_of_pos])
    have e : ((9395241 : Int) : ℚ) * 2 ^ (-27 : Int) = 9395241 / 2 ^ 27 := by norm_num
    rwa [e] at this
  have hs : cruising.speed = Float32.finite (9395241 / 2 ^ 27) := rfl
  have h1 : Float32.ofInt 1 = Float32.finite 1 := by
    unfold Float32.ofInt
    rw [Int.cast_one, round32_one]
  have h0 : Float32.ofNat 0 = Float32.finite 0 := by
    unfold Float32.ofNat
    rw [Nat.cast_zero, round32_zero]
  have hm1 : Float32.mul (Float32.finite 1) (Float32.finite (9895605 / 2 ^ 40))
      = Float32.finite (9895605 / 2 ^ 40) := by
    show round32 (1 * (9895605 / 2 ^ 40)) = _
    rw [one_mul, hA]
  have hm2 : Float32.mul (Float32.finite (9895605 / 2 ^ 40)) (Float32.finite 0)
      = Float32.finite 0 := by
    show round32 ((9895605 / 2 ^ 40) * 0) = _
    rw [mul_zero, round32_zero]
  have ha : Float32.add (Float32.finite (9395241 / 2 ^ 27)) (Float32.finite 0)
      = Float32.finite (9395241 / 2 ^ 27) := by
    show round32 (9395241 / 2 ^ 27 + 0) = _
    rw [add_zero, hV]
  rw [hd, hs, acceleration_value, terminalVelocity_value, h1, h0, hm1, hm2, ha]

/-- C2 at the boundary: from the speed 9395241 / 2^27, the `float` 0.07, a step of
deltaT = 0 returns the same speed, and the flag is false: the speed is not greater than
the constant. -/
theorem updatePosition_speed_flag_time_witness :
    ((1 : Int) = 1 ∨ (1 : Int) = -1)
    ∧ (updatePosition cruising 8000 1).speed = Float32.finite (9395241 / 2 ^ 27)
    ∧ (updatePosition cruising 8000 1).terminal = false
    ∧ (updatePosition cruising 8000 1).last_time = 8000 := by
  have h := updatePosition_speed_flag_time cruising 8000 1 (Or.inl rfl)
  have hs : (updatePosition cruising 8000 1).speed = terminalVelocity := cruising_speed
  refine ⟨Or.inl rfl, ?_, ?_, h.2.2.1⟩
  · rw [hs, terminalVelocity_value]
  · rw [h.2.1, hs, terminalVelocity_value, lt_self_false]

/-- C4: for every state in Accelerate mode, every timestamp and either button value, the
tick moves to Explode exactly when the integrated speed' = speed + A * deltaT (`float`
operations) is strictly greater than the `float` constant V_term = 0.07, and
modeStartTime is then now; a tick whose speed' equals the constant does not move to
Explode, and with speed' > V_term a released button does not prevent the move. -/
theorem AccelerateMode_explode_iff (stale : Nat) (s : State) (now button_press : Nat)
    (hmode : s.update = ModeFn.AccelerateMode) :
    ((tick stale s now button_press).update = ModeFn.ExplodeMode
        ↔ Float32.lt terminalVelocity
            (Float32.add s.speed
              (Float32.mul (Float32.mul (Float32.ofInt 1) acceleration)
                (Float32.ofNat (subUL now s.last_time)))) = true)
    ∧ (Float32.lt terminalVelocity
          (Float32.add s.speed
            (Float32.mul (Float32.mul (Float32.ofInt 1) acceleration)
              (Float32.ofNat (subUL now s.last_time)))) = true →
        (tick stale s now button_press).started_at = now)
    ∧ (Float32.add s.speed
          (Float32.mul (Float32.mul (Float32.ofInt 1) acceleration)
            (Float32.ofNat (subUL now s.last_time))) = terminalVelocity →
        (tick stale s now button_press).update ≠ ModeFn.ExplodeMode)
    ∧ (Float32.lt terminalVelocity
          (Float32.add s.speed
            (Float32.mul (Float32.mul (Float32.ofInt 1) acceleration)
              (Float32.ofNat (subUL now s.last_time)))) = true →
        (tick stale s now 0).update = ModeFn.ExplodeMode
        ∧ (tick stale s now 0).started_at = now) := by
  have key : ∀ b : Nat, (tick stale s now b).update = ModeFn.ExplodeMode
      ↔ Float32.lt terminalVelocity
          (Float32.add s.speed
            (Float32.mul (Float32.mul (Float32.ofInt 1) acceleration)
              (Float32.ofNat (subUL now s.last_time)))) = true := by
    intro b
    cases ht : Float32.lt terminalVelocity
        (Float32.add s.speed
          (Float32.mul (Float32.mul (Float32.ofInt 1) acceleration)
            (Float32.ofNat (subUL now s.last_time))))
    · by_cases hb : b = 0 <;>
        simp [tick, AccelerateMode, updatePosition, hmode, ht, hb]
    · simp [tick, AccelerateMode, updatePosition, hmode, ht]
  have start : ∀ b : Nat, Float32.lt terminalVelocity
        (Float32.add s.speed
          (Float32.mul (Float32.mul (Float32.ofInt 1) acceleration)
            (Float32.ofNat (subUL now s.last_time)))) = true →
      (tick stale s now b).started_at = now := by
    intro b ht
    simp [tick, AccelerateMode, updatePosition, hmode, ht]
  refine ⟨key button_press, start button_press, ?_, ?_⟩
  · intro heq hex
    have h := (key button_press).1 hex
    rw [heq, terminalVelocity_value, lt_self_false] at h
    exact absurd h (by decide)
  · intro ht
    exact ⟨(key 0).2 ht, start 0 ht⟩

/-- The speed a held tick 6987 ms after `nearTerminal` computes: 9395242 / 2^27, one unit
in the last place above the constant `terminalVelocity`. -/
theorem nearTerminal_speed :
    Float32.add nearTerminal.speed
        (Float32.mul (Float32.mul (Float32.ofInt 1) acceleration)
          (Float32.ofNat (subUL 6987 nearTerminal.last_time)))
      = Float32.finite (9395242 / 2 ^ 27) := by
  have hd : subUL 6987 nearTerminal.last_time = 6987 := by decide
  have hs : nearTerminal.speed = Float32.finite (15283641 / 2 ^ 31) := rfl
  have hA : round32 (9895605 / 2 ^ 40) = Float32.finite (9895605 / 2 ^ 40) := by
    have := round32_fixed 9895605 (-40) (by norm_num) (by norm_num) (Or.inl (by norm_num))
      (by norm_num [abs_of_pos])
    have e : ((9895605 : Int) : ℚ) * 2 ^ (-40 : Int) = 9895605 / 2 ^ 40 := by norm_num
    rwa [e] at this
  have h1 : Float32.ofInt 1 = Float32.finite 1 := by
    unfold Float32.ofInt
    rw [Int.cast_one, round32_one]
  have hn : Float32.ofNat 6987 = Float32.finite 6987 := by
    have := round32_fixed (6987 * 2 ^ 11) (-11) (by norm_num) (by norm_num)
      (Or.inl (by norm_num)) (by norm_num [abs_of_pos])
    have e : ((6987 * 2 ^ 11 : Int) : ℚ) * 2 ^ (-11 : Int) = ((6987 : Nat) : ℚ) := by norm_num
    rw [e] at this
    unfold Float32.ofNat
    rw [this]
    norm_num
  have hm1 : Float32.mul (Float32.finite 1) (Float32.finite (9895605 / 2 ^ 40))
      = Float32.finite (9895605 / 2 ^ 40) := by
    show round32 (1 * (9895605 / 2 ^ 40)) = _
    rw [one_mul, hA]
  have hm2 : Float32.mul (Float32.finite (9895605 / 2 ^ 40)) (Float32.finite 6987)
      = Float32.finite (8440014 / 2 ^ 27) := by
    show round32 ((9895605 / 2 ^ 40) * 6987) = _
    have hg : roundToGrid ((9895605 / 2 ^ 40) * 6987) = ((8440014 : Int) : ℚ) * 2 ^ (-27 : Int) :=
      roundToGrid_eval _ (-27) 8440014 (by norm_num) (by norm_num) (by norm_num) (by norm_num)
        (by norm_num) (by norm_num)
    rw [(round32_of_abs_le _ (by norm_num [abs_of_pos])).1, hg]
    norm_num
  have ha : Float32.add (Float32.finite (15283641 / 2 ^ 31)) (Float32.finite (8440014 / 2 ^ 27))
      = Float32.finite (9395242 / 2 ^ 27) := by
    show round32 (15283641 / 2 ^ 31 + 8440014 / 2 ^ 27) = _
    have hg : roundToGrid (15283641 / 2 ^ 31 + 8440014 / 2 ^ 27)
        = ((9395242 : Int) : ℚ) * 2 ^ (-27 : Int) :=
      roundToGrid_eval _ (-27) 9395242 (by norm_num) (by norm_num) (by norm_num) (by norm_num)
        (by norm_num) (by norm_num)
    rw [(round32_of_abs_le _ (by norm_num [abs_of_pos])).1, hg]
    norm_num
  rw [hd, hs, acceleration_value, h1, hn, hm1, hm2, ha]

/-- C4 at two concrete ticks. From the speed 9395241 / 2^27, the `float` 0.07, a held
tick of deltaT = 0 computes the same speed and stays out of Explode. From the speed
15283641 / 2^31 a held tick 6987 ms later computes 9395242 / 2^27 > 9395241 / 2^27 and
moves to Explode with modeStartTime = 6987, although 15283641 / 2^31 + 0.000009 * 6987
is below 0.07. -/
theorem AccelerateMode_explode_iff_witness :
    cruising.update = ModeFn.AccelerateMode
    ∧ (tick 0 cruising 8000 1).update ≠ ModeFn.ExplodeMode
    ∧ nearTerminal.update = ModeFn.AccelerateMode
    ∧ (tick 0 nearTerminal 6987 1).update = ModeFn.ExplodeMode
    ∧ (tick 0 nearTerminal 6987 1).started_at = 6987
    ∧ (15283641 / 2 ^ 31 + 9 / 1000000 * 6987 : ℚ) < 7 / 100 := by
  have hfast : Float32.lt terminalVelocity
      (Float32.add nearTerminal.speed
        (Float32.mul (Float32.mul (Float32.ofInt 1) acceleration)
          (Float32.ofNat (subUL 6987 nearTerminal.last_time)))) = true := by
    rw [nearTerminal_speed, terminalVelocity_value]
    simp only [Float32.lt]
    norm_num
  exact ⟨rfl, (AccelerateMode_explode_iff 0 cruising 8000 1 rfl).2.2.1 cruising_speed, rfl,
    (AccelerateMode_explode_iff 0 nearTerminal 6987 1 rfl).1.2 hfast,
    (AccelerateMode_explode_iff 0 nearTerminal 6987 1 rfl).2.1 hfast, by norm_num⟩

/-- C5: for every state in Accelerate mode whose integrated speed' = speed + A * deltaT
(`float` operations) is not greater than the `float` constant V_term = 0.07: with the
button released the tick moves to Friction with modeStartTime = now, with the button
pressed the mode stays Accelerate and modeStartTime is unchanged; in both cases
position, speed, terminalFlag and lastTime are those `updatePosition` returns for
direction +1. -/
theorem AccelerateMode_below_terminal (stale : Nat) (s : State) (now button_press : Nat)
    (hmode : s.update = ModeFn.AccelerateMode)
    (hslow : Float32.lt terminalVelocity
        (Float32.add s.speed
          (Float32.mul (Float32.mul (Float32.ofInt 1) acceleration)
            (Float32.ofNat (subUL now s.last_time)))) = false) :
    (button_press = 0 → (tick stale s now button_press).update = ModeFn.FrictionMode
        ∧ (tick stale s now button_press).started_at = now)
    ∧ (button_press ≠ 0 → (tick stale s now button_press).update = ModeFn.AccelerateMode
        ∧ (tick stale s now button_press).started_at = s.started_at)
    ∧ (tick stale s now button_press).pos = (updatePosition s now 1).pos
    ∧ (tick stale s now button_press).speed = (updatePosition s now 1).speed
    ∧ (tick stale s now button_press).terminal = (updatePosition s now 1).terminal
    ∧ (tick stale s now button_press).last_time = (updatePosition s now 1).last_time
    ∧ (updatePosition s now 1).speed
        = Float32.add s.speed
            (Float32.mul (Float32.mul (Float32.ofInt 1) acceleration)
              (Float32.ofNat (subUL now s.last_time)))
    ∧ (updatePosition s now 1).terminal = false
    ∧ (updatePosition s now 1).last_time = now := by
  have hterm : (updatePosition s now 1).terminal = false := hslow
  by_cases hb : button_press = 0 <;>
    simp [tick, AccelerateMode, hmode, hterm, hb] <;> simp [updatePosition, hmode]

/-- C5 at the boundary: from the speed 9395241 / 2^27, the `float` 0.07, a tick of
deltaT = 0 with the button released computes a speed' not greater than the constant and
moves to Friction with modeStartTime = 8000. -/
theorem AccelerateMode_below_terminal_witness :
    cruising.update = ModeFn.AccelerateMode
    ∧ Float32.lt terminalVelocity
        (Float32.add cruising.speed
          (Float32.mul (Float32.mul (Float32.ofInt 1) acceleration)
            (Float32.ofNat (subUL 8000 cruising.last_time)))) = false
    ∧ (tick 0 cruising 8000 0).update = ModeFn.FrictionMode
    ∧ (tick 0 cruising 8000 0).started_at = 8000
    ∧ (tick 0 cruising 8000 0).speed = (updatePosition cruising 8000 1).speed := by
  have hslow : Float32.lt terminalVelocity
      (Float32.add cruising.speed
        (Float32.mul (Float32.mul (Float32.ofInt 1) acceleration)
          (Float32.ofNat (subUL 8000 cruising.last_time)))) = false := by
    rw [cruising_speed, terminalVelocity_value, lt_self_false]
  exact ⟨rfl, hslow, ((AccelerateMode_below_terminal 0 cruising 8000 0 rfl hslow).1 rfl).1,
    ((AccelerateMode_below_terminal 0 cruising 8000 0 rfl hslow).1 rfl).2,
    (AccelerateMode_below_terminal 0 cruising 8000 0 rfl hslow).2.2.2.1⟩

/-- C6: for every state in Friction mode, every timestamp and either button value, the
tick integrates in direction -1; the mode becomes Idle, with modeStartTime = now, exactly
when the integrated speed' = speed + (-1) * A * deltaT (`float` operations) is less than
0; otherwise a pressed button gives Accelerate with modeStartTime = now, and a released
button leaves Friction and modeStartTime as they were. -/
theorem FrictionMode_tick (stale : Nat) (s : State) (now button_press : Nat)
    (hmode : s.update = ModeFn.FrictionMode) :
    (tick stale s now button_press).pos = (updatePosition s now (-1)).pos
    ∧ (tick stale s now button_press).speed
        = Float32.add s.speed
            (Float32.mul (Float32.mul (Float32.ofInt (-1)) acceleration)
              (Float32.ofNat (subUL now s.last_time)))
    ∧ (tick stale s now button_press).terminal = (updatePosition s now (-1)).terminal
    ∧ (tick stale s now button_press).last_time = now
    ∧ ((tick stale s now button_press).update = ModeFn.IdleMode
        ↔ Float32.lt
            (Float32.add s.speed
              (Float32.mul (Float32.mul (Float32.ofInt (-1)) acceleration)
                (Float32.ofNat (subUL now s.last_time))))
            (Float32.finite 0) = true)
    ∧ (Float32.lt
          (Float32.add s.speed
            (Float32.mul (Float32.mul (Float32.ofInt (-1)) acceleration)
              (Float32.ofNat (subUL now s.last_time))))
          (Float32.finite 0) = true →
        (tick stale s now button_press).started_at = now)
    ∧ (Float32.lt
          (Float32.add s.speed
            (Float32.mul (Float32.mul (Float32.ofInt (-1)) acceleration)
              (Float32.ofNat (subUL now s.last_time))))
          (Float32.finite 0) = false →
        button_press ≠ 0 →
        (tick stale s now button_press).update = ModeFn.AccelerateMode
        ∧ (tick stale s now button_press).started_at = now)
    ∧ (Float32.lt
          (Float32.add s.speed
            (Float32.mul (Float32.mul (Float32.ofInt (-1)) acceleration)
              (Float32.ofNat (subUL now s.last_time))))
          (Float32.finite 0) = false →
        button_press = 0 →
        (tick stale s now button_press).update = ModeFn.FrictionMode
        ∧ (tick stale s now button_press).started_at = s.started_at) := by
  have hsp : (updatePosition s now (-1)).speed
      = Float32.add s.speed
          (Float32.mul (Float32.mul (Float32.ofInt (-1)) acceleration)
            (Float32.ofNat (subUL now s.last_time))) := rfl
  have hup : (updatePosition s now (-1)).update = ModeFn.FrictionMode := hmode
  have hst : (updatePosition s now (-1)).started_at = s.started_at := rfl
  have hlt : (updatePosition s now (-1)).last_time = now := rfl
  have htk : tick stale s now button_press = FrictionMode s now button_press := by
    simp [tick, hmode]
  rw [htk, ← hsp]
  cases hneg : Float32.lt (updatePosition s now (-1)).speed (Float32.finite 0)
  · by_cases hb : button_press = 0 <;> simp [FrictionMode, hneg, hb, hlt, hup, hst]
  · simp [FrictionMode, hneg, hlt]

/-- The speed a tick at time 12 computes from `coasting`: the product A * 6 is a tie and
rounds up to 14843408 / 2^38, so speed' = 14843407 / 2^38 - 14843408 / 2^38 = -1 / 2^38. -/
theorem coasting_speed :
    Float32.add coasting.speed
        (Float32.mul (Float32.mul (Float32.ofInt (-1)) acceleration)
          (Float32.ofNat (subUL 12 coasting.last_time)))
      = Float32.finite (-1 / 2 ^ 38) := by
  have hd : subUL 12 coasting.last_time = 6 := by decide
  have hs : coasting.speed = Float32.finite (14843407 / 2 ^ 38) := rfl
  have h1 : Float32.ofInt (-1) = Float32.finite (-1) := by
    unfold Float32.ofInt
    rw [Int.cast_neg, Int.cast_one, round32_neg_one]
  have hn : Float32.ofNat 6 = Float32.finite 6 := by
    have := round32_fixed (6 * 2 ^ 21) (-21) (by norm_num) (by norm_num)
      (Or.inl (by norm_num)) (by norm_num [abs_of_pos])
    have e : ((6 * 2 ^ 21 : Int) : ℚ) * 2 ^ (-21 : Int) = ((6 : Nat) : ℚ) := by norm_num
    rw [e] at this
    unfold Float32.ofNat
    rw [this]
    norm_num
  have hm1 : Float32.mul (Float32.finite (-1)) (Float32.finite (9895605 / 2 ^ 40))
      = Float32.finite (-(9895605 / 2 ^ 40)) := by
    show round32 (-1 * (9895605 / 2 ^ 40)) = _
    have := round32_fixed (-9895605) (-40) (by norm_num) (by norm_num) (Or.inl (by norm_num))
      (by norm_num [abs_of_pos])
    have e : ((-9895605 : Int) : ℚ) * 2 ^ (-40 : Int) = -1 * (9895605 / 2 ^ 40) := by norm_num
    rw [e] at this
    rw [this]
    norm_num
  have hm2 : Float32.mul (Float32.finite (-(9895605 / 2 ^ 40))) (Float32.finite 6)
      = Float32.finite (-(14843408 / 2 ^ 38)) := by
    show round32 (-(9895605 / 2 ^ 40) * 6) = _
    have hg : roundToGrid ((9895605 / 2 ^ 40) * 6)
        = (((if (14843407 : Int) % 2 = 0 then 14843407 else 14843407 + 1 : Int)) : ℚ)
          * 2 ^ (-38 : Int) :=
      roundToGrid_eval_tie _ (-38) 14843407 (by norm_num) (by norm_num) (by norm_num)
        (by norm_num) (by norm_num)
    have hneg : -(9895605 / 2 ^ 40 : ℚ) * 6 = -((9895605 / 2 ^ 40) * 6) := by ring
    rw [(round32_of_abs_le _ (by norm_num [abs_of_pos])).1, hneg, roundToGrid_neg, hg]
    norm_num
  have ha : Float32.add (Float32.finite (14843407 / 2 ^ 38))
      (Float32.finite (-(14843408 / 2 ^ 38))) = Float32.finite (-1 / 2 ^ 38) := by
    show round32 (14843407 / 2 ^ 38 + -(14843408 / 2 ^ 38)) = _
    have := round32_fixed (-2 ^ 23) (-61) (by norm_num) (by norm_num) (Or.inl (by norm_num))
      (by norm_num [abs_of_pos])
    have e : ((-2 ^ 23 : Int) : ℚ) * 2 ^ (-61 : Int)
        = 14843407 / 2 ^ 38 + -(14843408 / 2 ^ 38) := by norm_num
    rw [e] at this
    rw [this]
    norm_num
  rw [hd, hs, acceleration_value, h1, hn, hm1, hm2, ha]

/-- C6 at a concrete tick: `coasting` is in Friction mode with speed 14843407 / 2^38 and
last ticked at 6; the tick at 12 with the button released computes speed' = -1 / 2^38,
which is less than 0, and moves to Idle with modeStartTime = 12 (in exact arithmetic the
speed would be 0.000009 * 6 - 0.000009 * 6 = 0 and the mode would stay Friction). -/
theorem FrictionMode_tick_witness :
    coasting.update = ModeFn.FrictionMode
    ∧ (tick 0 coasting 12 0).speed = Float32.finite (-1 / 2 ^ 38)
    ∧ (tick 0 coasting 12 0).update = ModeFn.IdleMode
    ∧ (tick 0 coasting 12 0).started_at = 12 := by
  have h := FrictionMode_tick 0 coasting 12 0 rfl
  have hneg : Float32.lt
      (Float32.add coasting.speed
        (Float32.mul (Float32.mul (Float32.ofInt (-1)) acceleration)
          (Float32.ofNat (subUL 12 coasting.last_time))))
      (Float32.finite 0) = true := by
    rw [coasting_speed]
    simp only [Float32.lt]
    norm_num
  exact ⟨rfl, by rw [h.2.1, coasting_speed], h.2.2.2.2.1.2 hneg, h.2.2.2.2.2.1 hneg⟩

/-! ## The terminal flag along the binary32 runs -/

theorem roundToGrid_pow32 : roundToGrid (2 ^ 32) = 2 ^ 32 := by
  have := roundToGrid_fixed (2 ^ 23) 9 (by norm_num) (by norm_num) (Or.inl (by norm_num))
  have e : (((2 ^ 23 : Int) : ℚ)) * 2 ^ (9 : Int) = 2 ^ 32 := by norm_num
  rwa [e] at this

theorem roundToGrid_pow16 : roundToGrid (2 ^ 16) = 2 ^ 16 := by
  have := roundToGrid_fixed (2 ^ 23) (-7) (by norm_num) (by norm_num) (Or.inl (by norm_num))
  have e : (((2 ^ 23 : Int) : ℚ)) * 2 ^ (-7 : Int) = 2 ^ 16 := by norm_num
  rwa [e] at this

theorem roundToGrid_acceleration :
    roundToGrid (9895605 / 2 ^ 40) = 9895605 / 2 ^ 40 := by
  have := roundToGrid_fixed 9895605 (-40) (by norm_num) (by norm_num) (Or.inl (by norm_num))
  have e : ((9895605 : Int) : ℚ) * 2 ^ (-40 : Int) = 9895605 / 2 ^ 40 := by norm_num
  rwa [e] at this

/-- An elapsed time converts to a finite `float` between 0 and 2^32. -/
theorem ofNat_bounds (n : Nat) (h : n < 2 ^ 32) :
    Float32.ofNat n = Float32.finite (roundToGrid n)
    ∧ 0 ≤ roundToGrid (n : ℚ) ∧ roundToGrid (n : ℚ) ≤ 2 ^ 32 := by
  have hn0 : (0 : ℚ) ≤ n := Nat.cast_nonneg n
  have hn1 : (n : ℚ) ≤ 2 ^ 32 := by exact_mod_cast le_of_lt h
  have habs : |(n : ℚ)| ≤ 2 ^ 127 := by
    rw [abs_of_nonneg hn0]
    have : (2 : ℚ) ^ 32 ≤ 2 ^ 127 := by norm_num
    linarith
  refine ⟨(round32_of_abs_le _ habs).1, roundToGrid_nonneg hn0, ?_⟩
  have := roundToGrid_mono hn1
  rwa [roundToGrid_pow32] at this

theorem subUL_lt (a b : Nat) : subUL a b < 2 ^ 32 := by
  unfold subUL ulongSize
  omega

/-- The increment of the speed in direction +1 is a finite `float` between 0 and 2^16. -/
theorem increment_up (n : Nat) (h : n < 2 ^ 32) :
    ∃ w : ℚ, Float32.mul (Float32.mul (Float32.ofInt 1) acceleration) (Float32.ofNat n)
        = Float32.finite w ∧ 0 ≤ w ∧ w ≤ 2 ^ 16 := by
  obtain ⟨hr, hr0, hr1⟩ := ofNat_bounds n h
  have h1 : Float32.ofInt 1 = Float32.finite 1 := by
    unfold Float32.ofInt
    rw [Int.cast_one, round32_one]
  have hm1 : Float32.mul (Float32.finite 1) (Float32.finite (9895605 / 2 ^ 40))
      = Float32.finite (9895605 / 2 ^ 40) := by
    show round32 (1 * (9895605 / 2 ^ 40)) = _
    rw [one_mul, (round32_of_abs_le _ (by norm_num [abs_of_pos])).1, roundToGrid_acceleration]
  have hprod0 : (0 : ℚ) ≤ 9895605 / 2 ^ 40 * roundToGrid (n : ℚ) :=
    mul_nonneg (by norm_num) hr0
  have hprod1 : (9895605 / 2 ^ 40 : ℚ) * roundToGrid (n : ℚ) ≤ 2 ^ 16 := by
    have : (9895605 / 2 ^ 40 : ℚ) * roundToGrid (n : ℚ) ≤ 9895605 / 2 ^ 40 * 2 ^ 32 :=
      mul_le_mul_of_nonneg_left hr1 (by norm_num)
    have h2 : (9895605 / 2 ^ 40 : ℚ) * 2 ^ 32 ≤ 2 ^ 16 := by norm_num
    linarith
  have habs : |(9895605 / 2 ^ 40 : ℚ) * roundToGrid (n : ℚ)| ≤ 2 ^ 127 := by
    rw [abs_of_nonneg hprod0]
    have : (2 : ℚ) ^ 16 ≤ 2 ^ 127 := by norm_num
    linarith
  refine ⟨roundToGrid (9895605 / 2 ^ 40 * roundToGrid (n : ℚ)), ?_, roundToGrid_nonneg hprod0, ?_⟩
  · rw [acceleration_value, h1, hm1, hr]
    show round32 (9895605 / 2 ^ 40 * roundToGrid (n : ℚ)) = _
    exact (round32_of_abs_le _ habs).1
  · have := roundToGrid_mono hprod1
    rwa [roundToGrid_pow16] at this

/-- The increment of the speed in direction -1 is a finite `float` between -2^16 and 0. -/
theorem increment_down (n : Nat) (h : n < 2 ^ 32) :
    ∃ w : ℚ, Float32.mul (Float32.mul (Float32.ofInt (-1)) acceleration) (Float32.ofNat n)
        = Float32.finite w ∧ -(2 ^ 16) ≤ w ∧ w ≤ 0 := by
  obtain ⟨hr, hr0, hr1⟩ := ofNat_bounds n h
  have h1 : Float32.ofInt (-1) = Float32.finite (-1) := by
    unfold Float32.ofInt
    rw [Int.cast_neg, Int.cast_one, round32_neg_one]
  have hm1 : Float32.mul (Float32.finite (-1)) (Float32.finite (9895605 / 2 ^ 40))
      = Float32.finite (-(9895605 / 2 ^ 40)) := by
    show round32 (-1 * (9895605 / 2 ^ 40)) = _
    have e : (-1 : ℚ) * (9895605 / 2 ^ 40) = -(9895605 / 2 ^ 40) := by ring
    rw [e, (round32_of_abs_le _ (by norm_num [abs_of_pos])).1, roundToGrid_neg,
      roundToGrid_acceleration]
  have hprod0 : (0 : ℚ) ≤ 9895605 / 2 ^ 40 * roundToGrid (n : ℚ) :=
    mul_nonneg (by norm_num) hr0
  have hprod1 : (9895605 / 2 ^ 40 : ℚ) * roundToGrid (n : ℚ) ≤ 2 ^ 16 := by
    have : (9895605 / 2 ^ 40 : ℚ) * roundToGrid (n : ℚ) ≤ 9895605 / 2 ^ 40 * 2 ^ 32 :=
      mul_le_mul_of_nonneg_left hr1 (by norm_num)
    have h2 : (9895605 / 2 ^ 40 : ℚ) * 2 ^ 32 ≤ 2 ^ 16 := by norm_num
    linarith
  have e : -(9895605 / 2 ^ 40 : ℚ) * roundToGrid (n : ℚ)
      = -(9895605 / 2 ^ 40 * roundToGrid (n : ℚ)) := by ring
  have habs : |-(9895605 / 2 ^ 40 : ℚ) * roundToGrid (n : ℚ)| ≤ 2 ^ 127 := by
    rw [e, abs_neg, abs_of_nonneg hprod0]
    have : (2 : ℚ) ^ 16 ≤ 2 ^ 127 := by norm_num
    linarith
  have hup := roundToGrid_mono hprod1
  rw [roundToGrid_pow16] at hup
  have hlow := roundToGrid_nonneg hprod0
  refine ⟨roundToGrid (-(9895605 / 2 ^ 40) * roundToGrid (n : ℚ)), ?_, ?_, ?_⟩
  · rw [acceleration_value, h1, hm1, hr]
    show round32 (-(9895605 / 2 ^ 40) * roundToGrid (n : ℚ)) = _
    exact (round32_of_abs_le _ habs).1
  · rw [e, roundToGrid_neg]
    linarith
  · rw [e, roundToGrid_neg]
    linarith

/-- Adding a `float` in the range of the increments to a `float` speed between 0 and 1
gives a finite `float`, on the same side of the old speed as the sign of the increment. -/
theorem add_increment (v w : ℚ) (hv : roundToGrid v = v) (hv0 : 0 ≤ v) (hv1 : v ≤ 1)
    (hw0 : -(2 ^ 16) ≤ w) (hw1 : w ≤ 2 ^ 16) :
    Float32.add (Float32.finite v) (Float32.finite w) = Float32.finite (roundToGrid (v + w))
    ∧ roundToGrid (roundToGrid (v + w)) = roundToGrid (v + w)
    ∧ (0 ≤ w → v ≤ roundToGrid (v + w))
    ∧ (w ≤ 0 → roundToGrid (v + w) ≤ v) := by
  have habs : |v + w| ≤ 2 ^ 127 := by
    rw [abs_le]
    have : (2 : ℚ) ^ 16 + 1 ≤ 2 ^ 127 := by norm_num
    constructor <;> linarith
  refine ⟨(round32_of_abs_le _ habs).1, roundToGrid_idem _, ?_, ?_⟩
  · intro h
    have := roundToGrid_mono (show v ≤ v + w by linarith)
    rwa [hv] at this
  · intro h
    have := roundToGrid_mono (show v + w ≤ v by linarith)
    rwa [hv] at this

/-- What `AccelerateMode` returns, branch by branch. -/
theorem AccelerateMode_fields (s : State) (t button_press : Nat)
    (hu : s.update = ModeFn.AccelerateMode) :
    (AccelerateMode s t button_press).speed = (updatePosition s t 1).speed
    ∧ (AccelerateMode s t button_press).terminal = (updatePosition s t 1).terminal
    ∧ ((AccelerateMode s t button_press).update = ModeFn.AccelerateMode
        ∨ (AccelerateMode s t button_press).update = ModeFn.FrictionMode →
      (updatePosition s t 1).terminal = false) := by
  have hup : (updatePosition s t 1).update = ModeFn.AccelerateMode := hu
  unfold AccelerateMode
  cases hterm : (updatePosition s t 1).terminal <;>
    by_cases hb : button_press = 0 <;> simp [hterm, hb, hup]

/-- What `FrictionMode` returns, branch by branch. -/
theorem FrictionMode_fields (s : State) (t button_press : Nat)
    (hu : s.update = ModeFn.FrictionMode) :
    (FrictionMode s t button_press).speed = (updatePosition s t (-1)).speed
    ∧ (FrictionMode s t button_press).terminal = (updatePosition s t (-1)).terminal
    ∧ ((FrictionMode s t button_press).update = ModeFn.AccelerateMode
        ∨ (FrictionMode s t button_press).update = ModeFn.FrictionMode →
      Float32.lt (updatePosition s t (-1)).speed (Float32.finite 0) = false) := by
  have hup : (updatePosition s t (-1)).update = ModeFn.FrictionMode := hu
  unfold FrictionMode
  cases hneg : Float32.lt (updatePosition s t (-1)).speed (Float32.finite 0) <;>
    by_cases hb : button_press = 0 <;> simp [hneg, hb, hup]

/-- The property every tick of the binary32 machine keeps: the flag is the comparison
speed > terminalVelocity, and in Accelerate and Friction mode the speed is a finite
`float` between 0 and the constant `terminalVelocity`. -/
theorem tick_keeps_flag (stale : Nat) (s : State) (t button_press : Nat)
    (hflag : s.terminal = Float32.lt terminalVelocity s.speed)
    (hmode : s.update = ModeFn.AccelerateMode ∨ s.update = ModeFn.FrictionMode →
      ∃ v : ℚ, s.speed = Float32.finite v ∧ roundToGrid v = v ∧ 0 ≤ v
        ∧ v ≤ 9395241 / 2 ^ 27) :
    (tick stale s t button_press).terminal
        = Float32.lt terminalVelocity (tick stale s t button_press).speed
    ∧ ((tick stale s t button_press).update = ModeFn.AccelerateMode
        ∨ (tick stale s t button_press).update = ModeFn.FrictionMode →
      ∃ v : ℚ, (tick stale s t button_press).speed = Float32.finite v ∧ roundToGrid v = v
        ∧ 0 ≤ v ∧ v ≤ 9395241 / 2 ^ 27) := by
  have hVpos : (0 : ℚ) < 9395241 / 2 ^ 27 := by norm_num
  have hV1 : (9395241 / 2 ^ 27 : ℚ) ≤ 1 := by norm_num
  cases hu : s.update with
  | IdleMode =>
    have hz : Float32.lt terminalVelocity (Float32.finite 0) = false := by
      rw [terminalVelocity_value]
      simp only [Float32.lt]
      norm_num
    have htk : tick stale s t button_press = IdleMode stale s t button_press := by
      simp [tick, hu]
    rw [htk]
    by_cases hb : button_press = 0
    · simp [IdleMode, hu, hb, hz]
    · simp only [IdleMode, hb, ne_eq, not_false_eq_true, if_true, hz]
      exact ⟨trivial, fun _ => ⟨0, rfl, roundToGrid_zero, le_refl 0, le_of_lt hVpos⟩⟩
  | AccelerateMode =>
    obtain ⟨v, hsv, hrv, hv0, hv1⟩ := hmode (Or.inl hu)
    obtain ⟨w, hw, hw0, hw1⟩ := increment_up (subUL t s.last_time) (subUL_lt _ _)
    obtain ⟨hadd, hidem, hge, -⟩ := add_increment v w hrv hv0 (by linarith) (by linarith) hw1
    have hsp : (updatePosition s t 1).speed = Float32.finite (roundToGrid (v + w)) := by
      show Float32.add s.speed _ = _
      rw [hsv, hw, hadd]
    have hte : (updatePosition s t 1).terminal
        = Float32.lt terminalVelocity (updatePosition s t 1).speed := rfl
    obtain ⟨fs, ft, fm⟩ := AccelerateMode_fields s t button_press hu
    have htk : tick stale s t button_press = AccelerateMode s t button_press := by
      simp [tick, hu]
    rw [htk, fs, ft]
    refine ⟨hte, fun hm => ?_⟩
    have hterm := fm hm
    rw [hte, hsp, terminalVelocity_value] at hterm
    simp only [Float32.lt, decide_eq_false_iff_not, not_lt] at hterm
    exact ⟨roundToGrid (v + w), hsp, hidem, le_trans hv0 (hge hw0), hterm⟩
  | FrictionMode =>
    obtain ⟨v, hsv, hrv, hv0, hv1⟩ := hmode (Or.inr hu)
    obtain ⟨w, hw, hw0, hw1⟩ := increment_down (subUL t s.last_time) (subUL_lt _ _)
    obtain ⟨hadd, hidem, -, hle⟩ :=
      add_increment v w hrv hv0 (by linarith) hw0 (by linarith)
    have hsp : (updatePosition s t (-1)).speed = Float32.finite (roundToGrid (v + w)) := by
      show Float32.add s.speed _ = _
      rw [hsv, hw, hadd]
    have hte : (updatePosition s t (-1)).terminal
        = Float32.lt terminalVelocity (updatePosition s t (-1)).speed := rfl
    obtain ⟨fs, ft, fm⟩ := FrictionMode_fields s t button_press hu
    have htk : tick stale s t button_press = FrictionMode s t button_press := by
      simp [tick, hu]
    rw [htk, fs, ft]
    refine ⟨hte, fun hm => ?_⟩
    have hneg := fm hm
    rw [hsp] at hneg
    simp only [Float32.lt, decide_eq_false_iff_not, not_lt] at hneg
    exact ⟨roundToGrid (v + w), hsp, hidem, hneg, le_trans (hle hw1) hv1⟩
  | ExplodeMode =>
    by_cases hd : subUL t s.started_at > 1500 <;>
      simp [tick, ExplodeMode, hu, hd, hflag]

/-- The property holds in every state a binary32 run reaches from a state where it
holds. -/
theorem run_keeps_flag (inputs : List TickInput) (s : State)
    (hflag : s.terminal = Float32.lt terminalVelocity s.speed)
    (hmode : s.update = ModeFn.AccelerateMode ∨ s.update = ModeFn.FrictionMode →
      ∃ v : ℚ, s.speed = Float32.finite v ∧ roundToGrid v = v ∧ 0 ≤ v
        ∧ v ≤ 9395241 / 2 ^ 27) :
    (run s inputs).terminal = Float32.lt terminalVelocity (run s inputs).speed
    ∧ ((run s inputs).update = ModeFn.AccelerateMode
        ∨ (run s inputs).update = ModeFn.FrictionMode →
      ∃ v : ℚ, (run s inputs).speed = Float32.finite v ∧ roundToGrid v = v ∧ 0 ≤ v
        ∧ v ≤ 9395241 / 2 ^ 27) := by
  induction inputs generalizing s with
  | nil => exact ⟨hflag, hmode⟩
  | cons i rest ih =>
    have hstep := tick_keeps_flag i.stale s i.t i.button_press hflag hmode
    exact ih (tick i.stale s i.t i.button_press) hstep.1 hstep.2

/-- The property in every state reached from the state written by `setup`. -/
theorem reachable_flag (t0 t1 : Nat) (inputs : List TickInput) :
    (run (setup t0 t1) inputs).terminal
        = Float32.lt terminalVelocity (run (setup t0 t1) inputs).speed
    ∧ ((run (setup t0 t1) inputs).update = ModeFn.AccelerateMode
        ∨ (run (setup t0 t1) inputs).update = ModeFn.FrictionMode →
      ∃ v : ℚ, (run (setup t0 t1) inputs).speed = Float32.finite v ∧ roundToGrid v = v
        ∧ 0 ≤ v ∧ v ≤ 9395241 / 2 ^ 27) := by
  apply run_keeps_flag
  · show false = Float32.lt terminalVelocity (Float32.finite 0)
    rw [terminalVelocity_value]
    simp only [Float32.lt]
    norm_num
  · intro h
    have hi : (setup t0 t1).update = ModeFn.IdleMode := rfl
    rw [hi] at h
    rcases h with h | h <;> exact absurd h (by decide)

/-- C14: in every state the machine, computing in binary32, reaches from the state
written by `setup` (Idle, position 0, speed 0, terminalFlag false) by any sequence of
ticks, terminalFlag is true exactly when the speed is strictly greater than V_term, the
`float` constant 0.07; and a tick from such a state that turns terminalFlag from true to
false is a tick handled by `IdleMode`. -/
theorem terminal_flag_invariant (t0 t1 : Nat) (inputs : List TickInput) :
    ((run (setup t0 t1) inputs).terminal = true
        ↔ Float32.lt terminalVelocity (run (setup t0 t1) inputs).speed = true)
    ∧ terminalVelocity = Float32.finite (9395241 / 2 ^ 27)
    ∧ ∀ i : TickInput, (run (setup t0 t1) inputs).terminal = true →
        (tick i.stale (run (setup t0 t1) inputs) i.t i.button_press).terminal = false →
        (run (setup t0 t1) inputs).update = ModeFn.IdleMode := by
  have hb := reachable_flag t0 t1 inputs
  refine ⟨by rw [hb.1], terminalVelocity_value, ?_⟩
  intro i hterm hclear
  have hslow : ∀ v : ℚ, (run (setup t0 t1) inputs).speed = Float32.finite v →
      v ≤ 9395241 / 2 ^ 27 → False := by
    intro v hv hle
    have h := hb.1
    rw [hterm, hv, terminalVelocity_value] at h
    simp only [Float32.lt] at h
    have := of_decide_eq_true h.symm
    linarith
  cases hu : (run (setup t0 t1) inputs).update with
  | IdleMode => rfl
  | AccelerateMode =>
    obtain ⟨v, hv, -, -, hle⟩ := hb.2 (Or.inl hu)
    exact absurd (hslow v hv hle) id
  | FrictionMode =>
    obtain ⟨v, hv, -, -, hle⟩ := hb.2 (Or.inr hu)
    exact absurd (hslow v hv hle) id
  | ExplodeMode =>
    have hkeep : (tick i.stale (run (setup t0 t1) inputs) i.t i.button_press).terminal
        = (run (setup t0 t1) inputs).terminal := by
      by_cases hd : subUL i.t (run (setup t0 t1) inputs).started_at > 1500 <;>
        simp [tick, ExplodeMode, hu, hd]
    rw [hkeep, hterm] at hclear
    exact absurd hclear (by decide)

end Binary32

/-- Evaluation of `round32` at a positive value below `2 ^ 127`. -/
theorem round32_eval (q : ℚ) (p m : Int)
    (h : 0 < q ∧ (2 : ℚ) ^ (p + 23) ≤ q ∧ q < (2 : ℚ) ^ (p + 24) ∧ -149 ≤ p ∧ p ≤ 103
      ∧ (m : ℚ) - 1 / 2 < q / 2 ^ p ∧ q / 2 ^ p < (m : ℚ) + 1 / 2) :
    round32 q = Float32.finite ((m : ℚ) * 2 ^ p) := by
  obtain ⟨hq, he1, he2, hp, hp2, h1, h2⟩ := h
  have hb : |q| ≤ 2 ^ 127 := by
    rw [abs_of_pos hq]
    have : (2 : ℚ) ^ (p + 24) ≤ 2 ^ (127 : Int) := two_zpow_mono (by omega)
    have e : (2 : ℚ) ^ (127 : Int) = 2 ^ 127 := by norm_num
    linarith
  rw [(round32_of_abs_le q hb).1, roundToGrid_eval q p m hq he1 he2 hp h1 h2]

/-- Evaluation of `round32` at a negative value above `-2 ^ 127`. -/
theorem round32_eval_neg (q : ℚ) (p m : Int)
    (h : 0 < q ∧ (2 : ℚ) ^ (p + 23) ≤ q ∧ q < (2 : ℚ) ^ (p + 24) ∧ -149 ≤ p ∧ p ≤ 103
      ∧ (m : ℚ) - 1 / 2 < q / 2 ^ p ∧ q / 2 ^ p < (m : ℚ) + 1 / 2) :
    round32 (-q) = Float32.finite (-((m : ℚ) * 2 ^ p)) := by
  obtain ⟨hq, he1, he2, hp, hp2, h1, h2⟩ := h
  have hb : |-q| ≤ 2 ^ 127 := by
    rw [abs_neg, abs_of_pos hq]
    have : (2 : ℚ) ^ (p + 24) ≤ 2 ^ (127 : Int) := two_zpow_mono (by omega)
    have e : (2 : ℚ) ^ (127 : Int) = 2 ^ 127 := by norm_num
    linarith
  rw [(round32_of_abs_le (-q) hb).1, roundToGrid_neg, roundToGrid_eval q p m hq he1 he2 hp h1 h2]

/-- Evaluation of `round32` at a positive tie. -/
theorem round32_eval_tie (q : ℚ) (p f : Int)
    (h : 0 < q ∧ (2 : ℚ) ^ (p + 23) ≤ q ∧ q < (2 : ℚ) ^ (p + 24) ∧ -149 ≤ p ∧ p ≤ 103
      ∧ q / 2 ^ p = (f : ℚ) + 1 / 2) :
    round32 q = Float32.finite (((if f % 2 = 0 then f else f + 1 : Int) : ℚ) * 2 ^ p) := by
  obtain ⟨hq, he1, he2, hp, hp2, h1⟩ := h
  have hb : |q| ≤ 2 ^ 127 := by
    rw [abs_of_pos hq]
    have : (2 : ℚ) ^ (p + 24) ≤ 2 ^ (127 : Int) := two_zpow_mono (by omega)
    have e : (2 : ℚ) ^ (127 : Int) = 2 ^ 127 := by norm_num
    linarith
  rw [(round32_of_abs_le q hb).1, roundToGrid_eval_tie q p f hq he1 he2 hp h1]

/-- Evaluation of `round32` at a negative tie. -/
theorem round32_eval_tie_neg (q : ℚ) (p f : Int)
    (h : 0 < q ∧ (2 : ℚ) ^ (p + 23) ≤ q ∧ q < (2 : ℚ) ^ (p + 24) ∧ -149 ≤ p ∧ p ≤ 103
      ∧ q / 2 ^ p = (f : ℚ) + 1 / 2) :
    round32 (-q)
      = Float32.finite (-(((if f % 2 = 0 then f else f + 1 : Int) : ℚ) * 2 ^ p)) := by
  obtain ⟨hq, he1, he2, hp, hp2, h1⟩ := h
  have hb : |-q| ≤ 2 ^ 127 := by
    rw [abs_neg, abs_of_pos hq]
    have : (2 : ℚ) ^ (p + 24) ≤ 2 ^ (127 : Int) := two_zpow_mono (by omega)
    have e : (2 : ℚ) ^ (127 : Int) = 2 ^ 127 := by norm_num
    linarith
  rw [(round32_of_abs_le (-q) hb).1, roundToGrid_neg, roundToGrid_eval_tie q p f hq he1 he2 hp h1]

namespace Binary32

/-! ## An example run in binary32 -/

/-- The state `updatePosition` returns, from the values of its three computed fields. -/
theorem updatePosition_eq (s : State) (t : Nat) (d : Int) (p v : Float32) (b : Bool)
    (hv : Float32.add s.speed
        (Float32.mul (Float32.mul (Float32.ofInt d) acceleration)
          (Float32.ofNat (subUL t s.last_time))) = v)
    (hp : Float32.add (Float32.add s.pos s.speed)
        (Float32.mul
          (Float32.mul
            (Float32.mul (Float32.mul (round32 (1 / 2)) (Float32.ofInt d)) acceleration)
            (Float32.ofNat (subUL t s.last_time)))
          (Float32.ofNat (subUL t s.last_time))) = p)
    (hb : Float32.lt terminalVelocity v = b) :
    updatePosition s t d
      = { pos := p, speed := v, terminal := b, last_time := t, started_at := s.started_at,
          update := s.update } := by
  subst hv hp hb
  rfl

/-- A tick of `AccelerateMode` below terminal velocity with the button held returns the
integrated state. -/
theorem AccelerateMode_stay (s : State) (t button_press : Nat) (n : State)
    (hn : updatePosition s t 1 = n) (hu : s.update = ModeFn.AccelerateMode)
    (ht : n.terminal = false) (hb : button_press ≠ 0) : tick 0 s t button_press = n := by
  simp [tick, hu, AccelerateMode, hn, ht, hb]

/-- A tick of `AccelerateMode` below terminal velocity with the button released returns
the integrated state, in Friction mode from now. -/
theorem AccelerateMode_release (s : State) (t : Nat) (n : State)
    (hn : updatePosition s t 1 = n) (hu : s.update = ModeFn.AccelerateMode)
    (ht : n.terminal = false) :
    tick 0 s t 0 = { n with started_at := t, update := ModeFn.FrictionMode } := by
  simp [tick, hu, AccelerateMode, hn, ht]

/-- A tick of `FrictionMode` whose integrated speed is below zero returns the integrated
state, in Idle mode from now. -/
theorem FrictionMode_rest (s : State) (t button_press : Nat) (n : State)
    (hn : updatePosition s t (-1) = n) (hu : s.update = ModeFn.FrictionMode)
    (hneg : Float32.lt n.speed (Float32.finite 0) = true) :
    tick 0 s t button_press = { n with started_at := t, update := ModeFn.IdleMode } := by
  simp [tick, hu, FrictionMode, hn, hneg]

/-- The tick at time 1 of the example run, the button held: the speed becomes the constant
`acceleration`. -/
theorem binary32_tick_at_1 : tick 0 pressed 1 1 = moving := by
  have hd : subUL 1 pressed.last_time = 1 := by decide
  have r1 : Float32.ofInt 1 = Float32.finite 1 := by
    show round32 (((1 : Int) : ℚ)) = _
    have e : (((1 : Int) : ℚ) : ℚ) = 1 := by norm_num
    rw [e, round32_eval 1 (-23) 8388608 (by norm_num)]
    norm_num
  have r2 : Float32.ofNat 1 = Float32.finite 1 := by
    show round32 (((1 : Nat) : ℚ)) = _
    have e : (((1 : Nat) : ℚ) : ℚ) = 1 := by norm_num
    rw [e, round32_eval 1 (-23) 8388608 (by norm_num)]
    norm_num
  have r3 : Float32.mul (Float32.finite 1) (Float32.finite (9895605 / 2 ^ 40)) = Float32.finite (9895605 / 2 ^ 40) := by
    show round32 (1 * (9895605 / 2 ^ 40)) = _
    have e : (1 * (9895605 / 2 ^ 40) : ℚ) = 9895605 / 2 ^ 40 := by norm_num
    rw [e, round32_eval (9895605 / 2 ^ 40) (-40) 9895605 (by norm_num)]
    norm_num
  have r4 : Float32.mul (Float32.finite (9895605 / 2 ^ 40)) (Float32.finite 1) = Float32.finite (9895605 / 2 ^ 40) := by
    show round32 ((9895605 / 2 ^ 40) * 1) = _
    have e : ((9895605 / 2 ^ 40) * 1 : ℚ) = 9895605 / 2 ^ 40 := by norm_num
    rw [e, round32_eval (9895605 / 2 ^ 40) (-40) 9895605 (by norm_num)]
    norm_num
  have r5 : Float32.add (Float32.finite 0) (Float32.finite (9895605 / 2 ^ 40)) = Float32.finite (9895605 / 2 ^ 40) := by
    show round32 (0 + (9895605 / 2 ^ 40)) = _
    have e : (0 + (9895605 / 2 ^ 40) : ℚ) = 9895605 / 2 ^ 40 := by norm_num
    rw [e, round32_eval (9895605 / 2 ^ 40) (-40) 9895605 (by norm_num)]
    norm_num
  have r6 : Float32.add (Float32.finite 0) (Float32.finite 0) = Float32.finite 0 := by
    show round32 (0 + 0) = _
    have e : (0 + 0 : ℚ) = 0 := by norm_num
    rw [e, round32_zero]
  have r7 : round32 (1 / 2) = Float32.finite (1 / 2 ^ 1) := by
    show round32 (1 / 2) = _
    have e : (1 / 2 : ℚ) = 1 / 2 ^ 1 := by norm_num
    rw [e, round32_eval (1 / 2 ^ 1) (-24) 8388608 (by norm_num)]
    norm_num
  have r8 : Float32.mul (Float32.finite (1 / 2 ^ 1)) (Float32.finite 1) = Float32.finite (1 / 2 ^ 1) := by
    show round32 ((1 / 2 ^ 1) * 1) = _
    have e : ((1 / 2 ^ 1) * 1 : ℚ) = 1 / 2 ^ 1 := by norm_num
    rw [e, round32_eval (1 / 2 ^ 1) (-24) 8388608 (by norm_num)]
    norm_num
  have r9 : Float32.mul (Float32.finite (1 / 2 ^ 1)) (Float32.finite (9895605 / 2 ^ 40)) = Float32.finite (9895605 / 2 ^ 41) := by
    show round32 ((1 / 2 ^ 1) * (9895605 / 2 ^ 40)) = _
    have e : ((1 / 2 ^ 1) * (9895605 / 2 ^ 40) : ℚ) = 9895605 / 2 ^ 41 := by norm_num
    rw [e, round32_eval (9895605 / 2 ^ 41) (-41) 9895605 (by norm_num)]
    norm_num
  have r10 : Float32.mul (Float32.finite (9895605 / 2 ^ 41)) (Float32.finite 1) = Float32.finite (9895605 / 2 ^ 41) := by
    show round32 ((9895605 / 2 ^ 41) * 1) = _
    have e : ((9895605 / 2 ^ 41) * 1 : ℚ) = 9895605 / 2 ^ 41 := by norm_num
    rw [e, round32_eval (9895605 / 2 ^ 41) (-41) 9895605 (by norm_num)]
    norm_num
  have r11 : Float32.mul (Float32.finite (9895605 / 2 ^ 41)) (Float32.finite 1) = Float32.finite (9895605 / 2 ^ 41) := by
    show round32 ((9895605 / 2 ^ 41) * 1) = _
    have e : ((9895605 / 2 ^ 41) * 1 : ℚ) = 9895605 / 2 ^ 41 := by norm_num
    rw [e, round32_eval (9895605 / 2 ^ 41) (-41) 9895605 (by norm_num)]
    norm_num
  have r12 : Float32.add (Float32.finite 0) (Float32.finite (9895605 / 2 ^ 41)) = Float32.finite (9895605 / 2 ^ 41) := by
    show round32 (0 + (9895605 / 2 ^ 41)) = _
    have e : (0 + (9895605 / 2 ^ 41) : ℚ) = 9895605 / 2 ^ 41 := by norm_num
    rw [e, round32_eval (9895605 / 2 ^ 41) (-41) 9895605 (by norm_num)]
    norm_num
  have hlt : Float32.lt terminalVelocity (Float32.finite (9895605 / 2 ^ 40)) = false := by
    rw [terminalVelocity_value]
    simp only [Float32.lt]
    norm_num
  have hup : updatePosition pressed 1 1
      = { pos := Float32.finite (9895605 / 2 ^ 41), speed := Float32.finite (9895605 / 2 ^ 40), terminal := false,
          last_time := 1, started_at := pressed.started_at, update := pressed.update } := by
    apply updatePosition_eq
    · rw [hd, acceleration_value, r1, r2, r3, r4]
      exact r5
    · rw [hd, acceleration_value, r1, r2, r7, r8, r9, r10, r11]
      show Float32.add (Float32.add (Float32.finite 0) (Float32.finite 0)) _ = _
      rw [r6, r12]
    · exact hlt
  exact AccelerateMode_stay _ _ _ _ hup rfl rfl (by decide)

/-- The tick at time 6 of the example run, the button released: the product A * 5 and the
sum are rounded. -/
theorem binary32_tick_at_6 : tick 0 moving 6 0 = coasting := by
  have hd : subUL 6 moving.last_time = 5 := by decide
  have r1 : Float32.ofInt 1 = Float32.finite 1 := by
    show round32 (((1 : Int) : ℚ)) = _
    have e : (((1 : Int) : ℚ) : ℚ) = 1 := by norm_num
    rw [e, round32_eval 1 (-23) 8388608 (by norm_num)]
    norm_num
  have r2 : Float32.ofNat 5 = Float32.finite 5 := by
    show round32 (((5 : Nat) : ℚ)) = _
    have e : (((5 : Nat) : ℚ) : ℚ) = 5 := by norm_num
    rw [e, round32_eval 5 (-21) 10485760 (by norm_num)]
    norm_num
  have r3 : Float32.mul (Float32.finite 1) (Float32.finite (9895605 / 2 ^ 40)) = Float32.finite (9895605 / 2 ^ 40) := by
    show round32 (1 * (9895605 / 2 ^ 40)) = _
    have e : (1 * (9895605 / 2 ^ 40) : ℚ) = 9895605 / 2 ^ 40 := by norm_num
    rw [e, round32_eval (9895605 / 2 ^ 40) (-40) 9895605 (by norm_num)]
    norm_num
  have r4 : Float32.mul (Float32.finite (9895605 / 2 ^ 40)) (Float32.finite 5) = Float32.finite (6184753 / 2 ^ 37) := by
    show round32 ((9895605 / 2 ^ 40) * 5) = _
    have e : ((9895605 / 2 ^ 40) * 5 : ℚ) = 49478025 / 2 ^ 40 := by norm_num
    rw [e, round32_eval (49478025 / 2 ^ 40) (-38) 12369506 (by norm_num)]
    norm_num
  have r5 : Float32.add (Float32.finite (9895605 / 2 ^ 40)) (Float32.finite (6184753 / 2 ^ 37)) = Float32.finite (14843407 / 2 ^ 38) := by
    show round32 ((9895605 / 2 ^ 40) + (6184753 / 2 ^ 37)) = _
    have e : ((9895605 / 2 ^ 40) + (6184753 / 2 ^ 37) : ℚ) = 59373629 / 2 ^ 40 := by norm_num
    rw [e, round32_eval (59373629 / 2 ^ 40) (-38) 14843407 (by norm_num)]
    norm_num
  have r6 : Float32.add (Float32.finite (9895605 / 2 ^ 41)) (Float32.finite (9895605 / 2 ^ 40)) = Float32.finite (927713 / 2 ^ 36) := by
    show round32 ((9895605 / 2 ^ 41) + (9895605 / 2 ^ 40)) = _
    have e : ((9895605 / 2 ^ 41) + (9895605 / 2 ^ 40) : ℚ) = 29686815 / 2 ^ 41 := by norm_num
    rw [e, round32_eval_tie (29686815 / 2 ^ 41) (-40) 14843407 (by norm_num)]
    norm_num
  have r7 : round32 (1 / 2) = Float32.finite (1 / 2 ^ 1) := by
    show round32 (1 / 2) = _
    have e : (1 / 2 : ℚ) = 1 / 2 ^ 1 := by norm_num
    rw [e, round32_eval (1 / 2 ^ 1) (-24) 8388608 (by norm_num)]
    norm_num
  have r8 : Float32.mul (Float32.finite (1 / 2 ^ 1)) (Float32.finite 1) = Float32.finite (1 / 2 ^ 1) := by
    show round32 ((1 / 2 ^ 1) * 1) = _
    have e : ((1 / 2 ^ 1) * 1 : ℚ) = 1 / 2 ^ 1 := by norm_num
    rw [e, round32_eval (1 / 2 ^ 1) (-24) 8388608 (by norm_num)]
    norm_num
  have r9 : Float32.mul (Float32.finite (1 / 2 ^ 1)) (Float32.finite (9895605 / 2 ^ 40)) = Float32.finite (9895605 / 2 ^ 41) := by
    show round32 ((1 / 2 ^ 1) * (9895605 / 2 ^ 40)) = _
    have e : ((1 / 2 ^ 1) * (9895605 / 2 ^ 40) : ℚ) = 9895605 / 2 ^ 41 := by norm_num
    rw [e, round32_eval (9895605 / 2 ^ 41) (-41) 9895605 (by norm_num)]
    norm_num
  have r10 : Float32.mul (Float32.finite (9895605 / 2 ^ 41)) (Float32.finite 5) = Float32.finite (6184753 / 2 ^ 38) := by
    show round32 ((9895605 / 2 ^ 41) * 5) = _
    have e : ((9895605 / 2 ^ 41) * 5 : ℚ) = 49478025 / 2 ^ 41 := by norm_num
    rw [e, round32_eval (49478025 / 2 ^ 41) (-39) 12369506 (by norm_num)]
    norm_num
  have r11 : Float32.mul (Float32.finite (6184753 / 2 ^ 38)) (Float32.finite 5) = Float32.finite (7730941 / 2 ^ 36) := by
    show round32 ((6184753 / 2 ^ 38) * 5) = _
    have e : ((6184753 / 2 ^ 38) * 5 : ℚ) = 30923765 / 2 ^ 38 := by norm_num
    rw [e, round32_eval_tie (30923765 / 2 ^ 38) (-37) 15461882 (by norm_num)]
    norm_num
  have r12 : Float32.add (Float32.finite (927713 / 2 ^ 36)) (Float32.finite (7730941 / 2 ^ 36)) = Float32.finite (4329327 / 2 ^ 35) := by
    show round32 ((927713 / 2 ^ 36) + (7730941 / 2 ^ 36)) = _
    have e : ((927713 / 2 ^ 36) + (7730941 / 2 ^ 36) : ℚ) = 4329327 / 2 ^ 35 := by norm_num
    rw [e, round32_eval (4329327 / 2 ^ 35) (-36) 8658654 (by norm_num)]
    norm_num
  have hlt : Float32.lt terminalVelocity (Float32.finite (14843407 / 2 ^ 38)) = false := by
    rw [terminalVelocity_value]
    simp only [Float32.lt]
    norm_num
  have hup : updatePosition moving 6 1
      = { pos := Float32.finite (4329327 / 2 ^ 35), speed := Float32.finite (14843407 / 2 ^ 38), terminal := false,
          last_time := 6, started_at := moving.started_at, update := moving.update } := by
    apply updatePosition_eq
    · rw [hd, acceleration_value, r1, r2, r3, r4]
      exact r5
    · rw [hd, acceleration_value, r1, r2, r7, r8, r9, r10, r11]
      show Float32.add (Float32.add (Float32.finite (9895605 / 2 ^ 41)) (Float32.finite (9895605 / 2 ^ 40))) _ = _
      rw [r6, r12]
    · exact hlt
  exact AccelerateMode_release _ _ _ hup rfl rfl

/-- The tick at time 12 of the example run: the product A * 6 is a tie, rounded to the even
neighbour above, and the speed falls below zero. -/
theorem binary32_tick_at_12 : tick 0 coasting 12 0 = rested := by
  have hd : subUL 12 coasting.last_time = 6 := by decide
  have r1 : Float32.ofInt (-1) = Float32.finite (-(1)) := by
    show round32 (((-1 : Int) : ℚ)) = _
    have e : (((-1 : Int) : ℚ) : ℚ) = -(1) := by norm_num
    rw [e, round32_eval_neg 1 (-23) 8388608 (by norm_num)]
    norm_num
  have r2 : Float32.ofNat 6 = Float32.finite 6 := by
    show round32 (((6 : Nat) : ℚ)) = _
    have e : (((6 : Nat) : ℚ) : ℚ) = 6 := by norm_num
    rw [e, round32_eval 6 (-21) 12582912 (by norm_num)]
    norm_num
  have r3 : Float32.mul (Float32.finite (-(1))) (Float32.finite (9895605 / 2 ^ 40)) = Float32.finite (-(9895605 / 2 ^ 40)) := by
    show round32 ((-(1)) * (9895605 / 2 ^ 40)) = _
    have e : ((-(1)) * (9895605 / 2 ^ 40) : ℚ) = -((9895605 / 2 ^ 40)) := by norm_num
    rw [e, round32_eval_neg (9895605 / 2 ^ 40) (-40) 9895605 (by norm_num)]
    norm_num
  have r4 : Float32.mul (Float32.finite (-(9895605 / 2 ^ 40))) (Float32.finite 6) = Float32.finite (-(927713 / 2 ^ 34)) := by
    show round32 ((-(9895605 / 2 ^ 40)) * 6) = _
    have e : ((-(9895605 / 2 ^ 40)) * 6 : ℚ) = -((29686815 / 2 ^ 39)) := by norm_num
    rw [e, round32_eval_tie_neg (29686815 / 2 ^ 39) (-38) 14843407 (by norm_num)]
    norm_num
  have r5 : Float32.add (Float32.finite (14843407 / 2 ^ 38)) (Float32.finite (-(927713 / 2 ^ 34))) = Float32.finite (-(1 / 2 ^ 38)) := by
    show round32 ((14843407 / 2 ^ 38) + (-(927713 / 2 ^ 34))) = _
    have e : ((14843407 / 2 ^ 38) + (-(927713 / 2 ^ 34)) : ℚ) = -((1 / 2 ^ 38)) := by norm_num
    rw [e, round32_eval_neg (1 / 2 ^ 38) (-61) 8388608 (by norm_num)]
    norm_num
  have r6 : Float32.add (Float32.finite (4329327 / 2 ^ 35)) (Float32.finite (14843407 / 2 ^ 38)) = Float32.finite (6184753 / 2 ^ 35) := by
    show round32 ((4329327 / 2 ^ 35) + (14843407 / 2 ^ 38)) = _
    have e : ((4329327 / 2 ^ 35) + (14843407 / 2 ^ 38) : ℚ) = 49478023 / 2 ^ 38 := by norm_num
    rw [e, round32_eval (49478023 / 2 ^ 38) (-36) 12369506 (by norm_num)]
    norm_num
  have r7 : round32 (1 / 2) = Float32.finite (1 / 2 ^ 1) := by
    show round32 (1 / 2) = _
    have e : (1 / 2 : ℚ) = 1 / 2 ^ 1 := by norm_num
    rw [e, round32_eval (1 / 2 ^ 1) (-24) 8388608 (by norm_num)]
    norm_num
  have r8 : Float32.mul (Float32.finite (1 / 2 ^ 1)) (Float32.finite (-(1))) = Float32.finite (-(1 / 2 ^ 1)) := by
    show round32 ((1 / 2 ^ 1) * (-(1))) = _
    have e : ((1 / 2 ^ 1) * (-(1)) : ℚ) = -((1 / 2 ^ 1)) := by norm_num
    rw [e, round32_eval_neg (1 / 2 ^ 1) (-24) 8388608 (by norm_num)]
    norm_num
  have r9 : Float32.mul (Float32.finite (-(1 / 2 ^ 1))) (Float32.finite (9895605 / 2 ^ 40)) = Float32.finite (-(9895605 / 2 ^ 41)) := by
    show round32 ((-(1 / 2 ^ 1)) * (9895605 / 2 ^ 40)) = _
    have e : ((-(1 / 2 ^ 1)) * (9895605 / 2 ^ 40) : ℚ) = -((9895605 / 2 ^ 41)) := by norm_num
    rw [e, round32_eval_neg (9895605 / 2 ^ 41) (-41) 9895605 (by norm_num)]
    norm_num
  have r10 : Float32.mul (Float32.finite (-(9895605 / 2 ^ 41))) (Float32.finite 6) = Float32.finite (-(927713 / 2 ^ 35)) := by
    show round32 ((-(9895605 / 2 ^ 41)) * 6) = _
    have e : ((-(9895605 / 2 ^ 41)) * 6 : ℚ) = -((29686815 / 2 ^ 40)) := by norm_num
    rw [e, round32_eval_tie_neg (29686815 / 2 ^ 40) (-39) 14843407 (by norm_num)]
    norm_num
  have r11 : Float32.mul (Float32.finite (-(927713 / 2 ^ 35))) (Float32.finite 6) = Float32.finite (-(2783139 / 2 ^ 34)) := by
    show round32 ((-(927713 / 2 ^ 35)) * 6) = _
    have e : ((-(927713 / 2 ^ 35)) * 6 : ℚ) = -((2783139 / 2 ^ 34)) := by norm_num
    rw [e, round32_eval_neg (2783139 / 2 ^ 34) (-36) 11132556 (by norm_num)]
    norm_num
  have r12 : Float32.add (Float32.finite (6184753 / 2 ^ 35)) (Float32.finite (-(2783139 / 2 ^ 34))) = Float32.finite (618475 / 2 ^ 35) := by
    show round32 ((6184753 / 2 ^ 35) + (-(2783139 / 2 ^ 34))) = _
    have e : ((6184753 / 2 ^ 35) + (-(2783139 / 2 ^ 34)) : ℚ) = 618475 / 2 ^ 35 := by norm_num
    rw [e, round32_eval (618475 / 2 ^ 35) (-39) 9895600 (by norm_num)]
    norm_num
  have hlt : Float32.lt terminalVelocity (Float32.finite (-(1 / 2 ^ 38))) = false := by
    rw [terminalVelocity_value]
    simp only [Float32.lt]
    norm_num
  have hup : updatePosition coasting 12 (-1)
      = { pos := Float32.finite (618475 / 2 ^ 35), speed := Float32.finite (-(1 / 2 ^ 38)), terminal := false,
          last_time := 12, started_at := coasting.started_at, update := coasting.update } := by
    apply updatePosition_eq
    · rw [hd, acceleration_value, r1, r2, r3, r4]
      exact r5
    · rw [hd, acceleration_value, r1, r2, r7, r8, r9, r10, r11]
      show Float32.add (Float32.add (Float32.finite (4329327 / 2 ^ 35)) (Float32.finite (14843407 / 2 ^ 38))) _ = _
      rw [r6, r12]
    · exact hlt
  have hneg : Float32.lt (Float32.finite (-(1 / 2 ^ 38))) (Float32.finite 0) = true := by
    simp only [Float32.lt]
    norm_num
  exact FrictionMode_rest _ _ _ _ hup rfl hneg

/-- A run is the ticks of its inputs, one after the other. -/
theorem run_cons (s : State) (i : TickInput) (rest : List TickInput) :
    run s (i :: rest) = run (tick i.stale s i.t i.button_press) rest := rfl

/-- A run without inputs is the state it starts from. -/
theorem run_nil (s : State) : run s [] = s := rfl

/-- The run of the binary32 machine from `setup` at time 0 that presses at times 0 and 1
and releases at times 6 and 12: after the tick at 6 it is in Friction mode with speed
14843407 / 2^38, and the tick at 12 brings it to Idle mode with speed -1 / 2^38 and
modeStartTime 12. -/
theorem binary32_run_example :
    run (setup 0 0) [⟨0, 0, 1⟩, ⟨0, 1, 1⟩, ⟨0, 6, 0⟩] = coasting
    ∧ run (setup 0 0) [⟨0, 0, 1⟩, ⟨0, 1, 1⟩, ⟨0, 6, 0⟩, ⟨0, 12, 0⟩] = rested := by
  have h0 : tick 0 (setup 0 0) 0 1 = pressed := rfl
  have e3 : run (setup 0 0) [⟨0, 0, 1⟩, ⟨0, 1, 1⟩, ⟨0, 6, 0⟩]
      = tick 0 (tick 0 (tick 0 (setup 0 0) 0 1) 1 1) 6 0 := by
    rw [run_cons, run_cons, run_cons, run_nil]
  have e4 : run (setup 0 0) [⟨0, 0, 1⟩, ⟨0, 1, 1⟩, ⟨0, 6, 0⟩, ⟨0, 12, 0⟩]
      = tick 0 (tick 0 (tick 0 (tick 0 (setup 0 0) 0 1) 1 1) 6 0) 12 0 := by
    rw [run_cons, run_cons, run_cons, run_cons, run_nil]
  rw [e3, e4, h0, binary32_tick_at_1, binary32_tick_at_6, binary32_tick_at_12]
  exact ⟨rfl, rfl⟩

end Binary32

end Blinkspace
